import Mathlib

/-!
Verification development for the AI-Story-Game repository.

The repository contains two near-identical Express servers and two variants
of a `GameState` class.  The core logic verified here is the
response-normalization pipeline (extractText / extractChoices /
GameState.generateChoices), the per-session state machine
(startNewGame / makeChoice) and the two HTTP handlers.

JavaScript values are modelled by the inductive `JSValue`; JS runtime
behaviours used by the code (truthiness, `typeof`, property access,
`Array.isArray`, `JSON.parse`, `JSON.stringify`, `String(_)`, array
indexing, the `%` remainder) are modelled by explicit functions.  The
specific regular expressions appearing in the source are modelled by
dedicated scanning functions reproducing their match semantics on the
modelled value space.  Provider calls (`fal.subscribe`) are external:
each is modelled by an `Except String JSValue` parameter, `.ok r`
standing for a resolved response `r` and `.error m` for a rejected
promise with message `m`.  Floating-point numbers and `NaN` are outside
the model (JS numbers are modelled as integers); no claim depends on
them.
-/

/-- Model of a JavaScript value (the JSON-with-undefined fragment that the
repository manipulates).  Numbers are modelled as integers. -/
inductive JSValue where
  | undefined : JSValue
  | null : JSValue
  | bool : Bool → JSValue
  | num : Int → JSValue
  | str : String → JSValue
  | arr : List JSValue → JSValue
  | obj : List (String × JSValue) → JSValue
deriving Repr, Inhabited

mutual

/-- Decidable equality for the nested `JSValue` inductive, by structural
recursion together with the element- and field-list comparisons. -/
def JSValue.decEq (v w : JSValue) : Decidable (v = w) := by
  cases v <;> cases w <;> try exact isFalse (fun hne => JSValue.noConfusion hne)
  case undefined.undefined => exact isTrue rfl
  case null.null => exact isTrue rfl
  case bool.bool a b =>
    exact if h : a = b then isTrue (by rw [h]) else isFalse (by simp [h])
  case num.num a b =>
    exact if h : a = b then isTrue (by rw [h]) else isFalse (by simp [h])
  case str.str a b =>
    exact if h : a = b then isTrue (by rw [h]) else isFalse (by simp [h])
  case arr.arr xs ys =>
    refine match JSValue.decEqList xs ys with
      | isTrue h => isTrue (by rw [h])
      | isFalse h => isFalse (by simp [h])
  case obj.obj fs gs =>
    refine match JSValue.decEqFields fs gs with
      | isTrue h => isTrue (by rw [h])
      | isFalse h => isFalse (by simp [h])

def JSValue.decEqList (xs ys : List JSValue) : Decidable (xs = ys) :=
  match xs, ys with
  | [], [] => isTrue rfl
  | [], _ :: _ => isFalse (fun hne => by cases hne)
  | _ :: _, [] => isFalse (fun hne => by cases hne)
  | x :: xs, y :: ys =>
    match JSValue.decEq x y with
    | isFalse h => isFalse (fun he => h (by cases he; rfl))
    | isTrue h1 =>
      match JSValue.decEqList xs ys with
      | isTrue h2 => isTrue (by rw [h1, h2])
      | isFalse h => isFalse (fun he => h (by cases he; rfl))

def JSValue.decEqFields (fs gs : List (String × JSValue)) : Decidable (fs = gs) :=
  match fs, gs with
  | [], [] => isTrue rfl
  | [], _ :: _ => isFalse (fun hne => by cases hne)
  | _ :: _, [] => isFalse (fun hne => by cases hne)
  | (k, x) :: fs, (l, y) :: gs =>
    if hk : k = l then
      match JSValue.decEq x y with
      | isFalse h => isFalse (fun he => h (by cases he; rfl))
      | isTrue h1 =>
        match JSValue.decEqFields fs gs with
        | isTrue h2 => isTrue (by rw [hk, h1, h2])
        | isFalse h => isFalse (fun he => h (by cases he; rfl))
    else isFalse (fun he => hk (by cases he; rfl))

end

instance : DecidableEq JSValue := JSValue.decEq

/-- JS truthiness.  `undefined`, `null`, `false`, `0` and the empty string
are falsy; arrays and objects are always truthy. -/
def truthy : JSValue → Bool
  | .undefined => false
  | .null => false
  | .bool b => b
  | .num n => n != 0
  | .str s => s != ""
  | .arr _ => true
  | .obj _ => true

/-- JS `typeof`. -/
def typeOf : JSValue → String
  | .undefined => "undefined"
  | .null => "object"
  | .bool _ => "boolean"
  | .num _ => "number"
  | .str _ => "string"
  | .arr _ => "object"
  | .obj _ => "object"

/-- `Array.isArray`. -/
def isArrayV : JSValue → Bool
  | .arr _ => true
  | _ => false

def isStrV : JSValue → Bool
  | .str _ => true
  | _ => false

/-- `v` is a non-empty string. -/
def isNonEmptyStr : JSValue → Bool
  | .str s => s != ""
  | _ => false

/-- JS property access `v.k`: on a plain object, the named field (or
`undefined` when absent); on every other value the accesses performed by
this codebase yield `undefined` (none of them reads built-in properties
such as `length` through this helper). -/
def getField (v : JSValue) (k : String) : JSValue :=
  match v with
  | .obj fs => match fs.lookup k with
    | some w => w
    | none => .undefined
  | _ => .undefined

/-- JS array indexing `v[i]` with an integer index: in range gives the
element, anything else (negative, past the end, non-array) gives
`undefined`. -/
def jsIndex (v : JSValue) (i : Int) : JSValue :=
  match v with
  | .arr xs => if 0 ≤ i then xs.getD i.toNat .undefined else .undefined
  | _ => .undefined

/-- JS `%` on integers: remainder truncated toward zero (sign of the
dividend), e.g. `(-1) % 3 = -1`. -/
def jsRemInt (a b : Int) : Int := Int.tmod a b

mutual

/-- JS `String(v)` coercion for the values in the model (arrays join their
elements with commas, `null`/`undefined` elements becoming empty). -/
def jsToString : JSValue → String
  | .undefined => "undefined"
  | .null => "null"
  | .bool b => if b then "true" else "false"
  | .num n => toString n
  | .str s => s
  | .arr xs => String.intercalate "," (jsToStringList xs)
  | .obj _ => "[object Object]"

def jsToStringList : List JSValue → List String
  | [] => []
  | .undefined :: vs => "" :: jsToStringList vs
  | .null :: vs => "" :: jsToStringList vs
  | v :: vs => jsToString v :: jsToStringList vs

end

/-- Escape one character as inside a JSON string literal (the escapes
`JSON.stringify` emits for the characters in this model). -/
def jsonQuoteChar (c : Char) : String :=
  if c = '"' then "\\\""
  else if c = '\\' then "\\\\"
  else if c = '\n' then "\\n"
  else if c = '\t' then "\\t"
  else if c = '\r' then "\\r"
  else String.mk [c]

/-- A JSON string literal for `s`. -/
def jsonQuote (s : String) : String :=
  "\"" ++ String.join (s.data.map jsonQuoteChar) ++ "\""

mutual

/-- `JSON.stringify`.  Returns `none` exactly for `undefined` (where the JS
builtin returns the value `undefined` rather than a string); `undefined`
array elements serialize as `null` and `undefined` object fields are
omitted, as in JS. -/
def jsStringifyV : JSValue → Option String
  | .undefined => none
  | .null => some "null"
  | .bool b => some (if b then "true" else "false")
  | .num n => some (toString n)
  | .str s => some (jsonQuote s)
  | .arr xs => some ("[" ++ String.intercalate "," (jsStringifyArr xs) ++ "]")
  | .obj fs => some ("\x7b" ++ String.intercalate "," (jsStringifyObj fs) ++ "\x7d")

def jsStringifyArr : List JSValue → List String
  | [] => []
  | v :: vs => ((jsStringifyV v).getD "null") :: jsStringifyArr vs

def jsStringifyObj : List (String × JSValue) → List String
  | [] => []
  | (k, v) :: fs =>
    match jsStringifyV v with
    | none => jsStringifyObj fs
    | some sv => (jsonQuote k ++ ":" ++ sv) :: jsStringifyObj fs

end

/-- `JSON.stringify` defaulted to a string (used only where the source
guarantees the argument is not `undefined`). -/
def jsStringifyD (v : JSValue) : String := (jsStringifyV v).getD "undefined"

/-! ### A model of `JSON.parse`

A fuel-indexed recursive-descent parser for the JSON fragment the model
covers (null, booleans, integer numbers, strings with the common escapes,
arrays, objects).  Real `JSON.parse` additionally accepts fractional and
exponent number forms and `\u` escapes; no input in this development uses
those.  `jsonParse` returns `none` where the JS builtin throws. -/

/-- JSON insignificant whitespace (also used for the `\s` character class
of the regexes modelled below, restricted to its common members). -/
def wsChar (c : Char) : Bool :=
  c = ' ' || c = '\t' || c = '\n' || c = '\r'

def skipWs : List Char → List Char
  | [] => []
  | c :: cs => if wsChar c then skipWs cs else c :: cs

/-- Decode one JSON string escape character. -/
def jsonUnescape (c : Char) : Option Char :=
  if c = '"' then some '"'
  else if c = '\\' then some '\\'
  else if c = '/' then some '/'
  else if c = 'n' then some '\n'
  else if c = 't' then some '\t'
  else if c = 'r' then some '\r'
  else if c = 'b' then some (Char.ofNat 8)
  else if c = 'f' then some (Char.ofNat 12)
  else none

/-- Parse the body of a JSON string literal (after the opening quote),
accumulating decoded characters; stops at the closing quote.  Unescaped
control characters are rejected, as in JSON. -/
def parseStringBody : Nat → List Char → List Char → Option (String × List Char)
  | 0, _, _ => none
  | _ + 1, [], _ => none
  | f + 1, c :: rest, acc =>
    if c = '"' then some (String.mk acc.reverse, rest)
    else if c = '\\' then
      match rest with
      | [] => none
      | e :: rest2 =>
        match jsonUnescape e with
        | some d => parseStringBody f rest2 (d :: acc)
        | none => none
    else if c.toNat < 32 then none
    else parseStringBody f rest (c :: acc)

/-- Parse a run of decimal digits into a natural number. -/
def parseDigits : List Char → Option (Nat × List Char)
  | c :: cs =>
    if c.isDigit then
      let rec go : List Char → Nat → Nat × List Char
        | d :: ds, acc => if d.isDigit then go ds (acc * 10 + (d.toNat - 48)) else (acc, d :: ds)
        | [], acc => (acc, [])
      some (go cs (c.toNat - 48))
    else none
  | [] => none

def startsWithChars : List Char → List Char → Bool
  | [], _ => true
  | _ :: _, [] => false
  | p :: ps, c :: cs => p = c && startsWithChars ps cs

def dropPrefixChars : List Char → List Char → Option (List Char)
  | [], cs => some cs
  | _ :: _, [] => none
  | p :: ps, c :: cs => if c = p then dropPrefixChars ps cs else none

mutual

def parseVal : Nat → List Char → Option (JSValue × List Char)
  | 0, _ => none
  | f + 1, cs =>
    match skipWs cs with
    | [] => none
    | c :: rest =>
      if c = '"' then
        match parseStringBody f rest [] with
        | some (s, r) => some (.str s, r)
        | none => none
      else if c = '[' then
        match skipWs rest with
        | ']' :: r2 => some (.arr [], r2)
        | r1 => parseArrItems f r1 []
      else if c = Char.ofNat 123 then
        match skipWs rest with
        | r1 =>
          if startsWithChars [Char.ofNat 125] r1 then some (.obj [], r1.drop 1)
          else parseObjItems f r1 []
      else if c = 't' then
        match dropPrefixChars ['r', 'u', 'e'] rest with
        | some r => some (.bool true, r)
        | none => none
      else if c = 'f' then
        match dropPrefixChars ['a', 'l', 's', 'e'] rest with
        | some r => some (.bool false, r)
        | none => none
      else if c = 'n' then
        match dropPrefixChars ['u', 'l', 'l'] rest with
        | some r => some (.null, r)
        | none => none
      else if c = '-' then
        match parseDigits rest with
        | some (n, r) => some (.num (-(n : Int)), r)
        | none => none
      else if c.isDigit then
        match parseDigits (c :: rest) with
        | some (n, r) => some (.num (n : Int), r)
        | none => none
      else none

def parseArrItems : Nat → List Char → List JSValue → Option (JSValue × List Char)
  | 0, _, _ => none
  | f + 1, cs, acc =>
    match parseVal f cs with
    | none => none
    | some (v, rest) =>
      match skipWs rest with
      | ',' :: r2 => parseArrItems f r2 (acc ++ [v])
      | ']' :: r2 => some (.arr (acc ++ [v]), r2)
      | _ => none

def parseObjItems : Nat → List Char → List (String × JSValue) → Option (JSValue × List Char)
  | 0, _, _ => none
  | f + 1, cs, acc =>
    match skipWs cs with
    | '"' :: r1 =>
      match parseStringBody f r1 [] with
      | none => none
      | some (k, r2) =>
        match skipWs r2 with
        | ':' :: r3 =>
          match parseVal f r3 with
          | none => none
          | some (v, r4) =>
            match skipWs r4 with
            | ',' :: r5 => parseObjItems f r5 (acc ++ [(k, v)])
            | r5 =>
              if startsWithChars [Char.ofNat 125] r5 then some (.obj (acc ++ [(k, v)]), r5.drop 1)
              else none
        | _ => none
    | _ => none

end

/-- `JSON.parse`: `some v` on success, `none` where the builtin throws. -/
def jsonParse (s : String) : Option JSValue :=
  match parseVal (4 * s.length + 8) s.data with
  | some (v, rest) => if skipWs rest = [] then some v else none
  | none => none

/-! ### Models of the regular expressions used by the source

Each scanner below reproduces, on the modelled inputs, the match semantics
of one concrete regex appearing in the repository. -/

/-- Matches of `/"(.*?)"/g` (with the surrounding quotes removed, which is
what mapping `choice.replace(/"/g, '')` over the matches produces): the
scanner pairs up successive quote characters left to right; a candidate
whose body would contain a line terminator is abandoned, as `.` does not
match one (the JS line terminators are `\n`, `\r`, U+2028 and U+2029).
The state is `none` outside a candidate match and
`some acc` inside one (reversed body accumulated). -/
def quotedScanAux : List Char → Option (List Char) → List String
  | [], _ => []
  | c :: rest, none =>
    if c = '"' then quotedScanAux rest (some []) else quotedScanAux rest none
  | c :: rest, some acc =>
    if c = '"' then String.mk acc.reverse :: quotedScanAux rest none
    else if c = '\n' || c = '\r' || c.toNat = 8232 || c.toNat = 8233 then
      quotedScanAux rest none
    else quotedScanAux rest (some (c :: acc))

def quotedScan (s : String) : List String := quotedScanAux s.data none

/-- The literal `‵‵‵json` opener of the fenced-code-block regex (backtick
characters spelled via their code point). -/
def fenceLit : List Char := "```json".data

/-- After the lazy `[...]` body: the regex continues `\s*` then three
backticks. -/
def fenceCloseOk (cs : List Char) : Bool :=
  startsWithChars "```".data (skipWs cs)

/-- The lazy body: the first `]` whose tail satisfies `\s*` + three
backticks closes the bracket group; every earlier character (including
other `]` that fail the lookahead) belongs to the body. -/
def fenceFindClose : List Char → Option (List Char × List Char)
  | [] => none
  | c :: rest =>
    if c = ']' && fenceCloseOk rest then some ([], rest)
    else
      match fenceFindClose rest with
      | some (body, r) => some (c :: body, r)
      | none => none

/-- Attempt the regex `/```json\s*(\[[\s\S]*?\])\s*```/` at the current
position; on success returns capture group 1 (the bracketed text). -/
def fenceMatchAt (cs : List Char) : Option (List Char) :=
  match dropPrefixChars fenceLit cs with
  | none => none
  | some r1 =>
    match skipWs r1 with
    | '[' :: r2 =>
      match fenceFindClose r2 with
      | some (body, _) => some ('[' :: body ++ [']'])
      | none => none
    | _ => none

/-- Leftmost match of the fenced-code-block regex over the whole string
(capture group 1). -/
def fenceSearch : List Char → Option (List Char)
  | [] => none
  | c :: rest =>
    match fenceMatchAt (c :: rest) with
    | some cap => some cap
    | none => fenceSearch rest

/-- Suffix after the first `[`. -/
def afterFirstLB : List Char → Option (List Char)
  | [] => none
  | c :: rest => if c = '[' then some rest else afterFirstLB rest

/-- Characters strictly before the last `]` (requires one to exist). -/
def upToLastRB : List Char → Option (List Char)
  | [] => none
  | c :: rest =>
    match upToLastRB rest with
    | some body => some (c :: body)
    | none => if c = ']' then some [] else none

/-- Match of `/\[.*\]/s` (greedy, `.` matching newlines): the substring
from the first `[` to the last `]` that follows it. -/
def bracketMatch (cs : List Char) : Option (List Char) :=
  match afterFirstLB cs with
  | none => none
  | some rest =>
    match upToLastRB rest with
    | some body => some ('[' :: body ++ [']'])
    | none => none

/-- Substring containment test (JS `String.prototype.includes`). -/
def hasSubstr (s pat : String) : Bool :=
  let rec go : List Char → Bool
    | [] => startsWithChars pat.data []
    | c :: cs => startsWithChars pat.data (c :: cs) || go cs
  go s.data

/-- The character class of `/^[0-9\-\*\.\)]+\s*/` used to strip list
markers from extracted choice lines. -/
def listMarkerChar (c : Char) : Bool :=
  c.isDigit || c = '-' || c = '*' || c = '.' || c = ')'

/-- `line.replace(/^[0-9\-\*\.\)]+\s*/, '')`: when the line starts with at
least one marker character, drop the leading run of marker characters and
the whitespace run after it; otherwise leave the line unchanged. -/
def stripListMarkers (line : String) : String :=
  match line.data with
  | [] => line
  | c :: _ =>
    if listMarkerChar c then
      String.mk ((line.data.dropWhile listMarkerChar).dropWhile (fun d => wsChar d))
    else line

/-! ### Response normalization — `src/ai-story-game copy/src/index.js` -/

/-- The shared default-choice triple (`DEFAULT_CHOICES` in part_000 and
`defaultChoices` in the other variants). -/
def defaultChoices : List JSValue :=
  [.str "Continue exploring", .str "Take a different path",
   .str "Stop and observe your surroundings"]

/-- The alternate triple returned by the copy-variant `extractChoices`
catch block (index.js lines 157-161).  For values of the model no
statement in that function can throw, so this branch is unreachable
there; the constant is kept for reference. -/
def copyCatchChoices : List JSValue :=
  [.str "Continue forward", .str "Look for another path",
   .str "Rest and consider your options"]

/-- `extractText` (copy variant index.js lines 25-90).  String inputs are
tried as JSON and the parsed `output` preferred; object inputs go through
the `data` field (string / object-with-`output` / stringify) and then the
direct `output` / `text` fields; everything else falls back to the default
text.  The outer catch can only be reached through JS runtime behaviours
outside the model (every operation in the body is total on `JSValue`). -/
def extractText (textResponse : JSValue) : JSValue :=
  let defaultText := "The adventure continues..."
  if ¬ truthy textResponse then .str defaultText
  else
    match textResponse with
    | .str s =>
      (match jsonParse s with
       | some parsed =>
         if truthy (getField parsed "output") then getField parsed "output" else .str s
       | none => .str s)
    | .obj _ | .arr _ =>
      -- typeof textResponse === 'object' (field reads on an array give undefined)
      let d := getField textResponse "data"
      if truthy d then
        match d with
        | .str s2 =>
          (match jsonParse s2 with
           | some parsed =>
             if truthy (getField parsed "output") then getField parsed "output" else .str s2
           | none => .str s2)
        | .obj _ | .arr _ =>
          -- typeof data === 'object' && data !== null
          if truthy (getField d "output") then getField d "output"
          else .str (jsStringifyD d)
        | _ => .str (jsStringifyD d)
      else if truthy (getField textResponse "output") then getField textResponse "output"
      else if truthy (getField textResponse "text") then getField textResponse "text"
      else .str defaultText
    | _ => .str defaultText

/-- The shared fenced-code-block extraction step used twice in the copy
variant `extractChoices`: match the ```json fence, JSON-parse the capture,
and accept only a non-empty array. -/
def choicesFromFence (s : String) : Option (List JSValue) :=
  match fenceSearch s.data with
  | some cap =>
    (match jsonParse (String.mk cap) with
     | some (.arr cs) => if cs.length > 0 then some cs else none
     | _ => none)
  | none => none

/-- `extractChoices` (copy variant index.js lines 93-163).  Arrays pass
through when non-empty; objects are probed at `data` (array passthrough,
fenced block in a string `data`, fenced block in a string `data.output`);
everything else yields the defaults. -/
def extractChoices (choicesResponse : JSValue) : List JSValue :=
  match choicesResponse with
  | .arr xs => if xs.length > 0 then xs else defaultChoices
  | .obj _ =>
    let d := getField choicesResponse "data"
    if truthy d then
      match d with
      | .arr ys => if ys.length > 0 then ys else defaultChoices
      | .str s =>
        (match choicesFromFence s with
         | some cs => cs
         | none => defaultChoices)
      | .obj _ =>
        if truthy (getField d "output") then
          match getField d "output" with
          | .str o =>
            (match choicesFromFence o with
             | some cs => cs
             | none => defaultChoices)
          | _ => defaultChoices
        else defaultChoices
      | _ => defaultChoices
    else defaultChoices
  | _ => defaultChoices

/-! ### Response normalization — `src/unnamed/part_000` -/

/-- `extractChoices` (part_000 lines 51-94).  The entry log stringifies the
response and calls `.substring` on the result, which throws for an
`undefined` response (`JSON.stringify(undefined)` is `undefined`); the
catch then returns the defaults.  Arrays pass through when non-empty;
otherwise only an object with a truthy string `data.output` is probed, by
collecting the double-quoted substrings, padding with leading defaults
below 3 entries and truncating to the first 3 above.  A truthy non-string
`output` makes `.match` throw, landing in the same catch. -/
def extractChoicesP0 (choicesResponse : JSValue) : List JSValue :=
  match choicesResponse with
  | .undefined => defaultChoices
  | .arr xs => if xs.length > 0 then xs else defaultChoices
  | .obj _ =>
    let d := getField choicesResponse "data"
    let o := getField d "output"
    if truthy d && truthy o then
      match o with
      | .str s =>
        let cleaned := (quotedScan s).map JSValue.str
        if cleaned.length > 0 then
          if cleaned.length < 3 then cleaned ++ defaultChoices.take (3 - cleaned.length)
          else cleaned.take 3
        else defaultChoices
      | _ => defaultChoices
    else defaultChoices
  | _ => defaultChoices

/-! ### `GameState.generateChoices` — `src/ai-story-game-main/src/gameState.js`

The provider call is abstracted as an `Except String JSValue` parameter;
`.error m` is a rejected `fal.subscribe` promise handled by the catch. -/

/-- `generateChoices` (main variant, lines 254-325).  A non-string scene
text short-circuits to the defaults before any call.  On a response, an
array `data` passes through when non-empty; a non-object `data` yields
the defaults; a truthy string `data.output` is mined for double-quoted
substrings which are returned unpadded and untruncated.  The entry log
stringifies the response (throws for `undefined`, caught → defaults),
and `.match` on a truthy non-string `output` throws into the same
catch. -/
def generateChoicesMain (sceneText : JSValue) (resp : Except String JSValue) :
    List JSValue :=
  if ¬ isStrV sceneText then defaultChoices
  else
    match resp with
    | .error _ => defaultChoices
    | .ok result =>
      match result with
      | .undefined => defaultChoices
      | _ =>
        let d := getField result "data"
        match d with
        | .arr xs => if xs.length > 0 then xs else defaultChoices
        | .obj _ =>
          if truthy (getField d "output") then
            match getField d "output" with
            | .str o =>
              let cleaned := (quotedScan o).map JSValue.str
              if cleaned.length > 0 then cleaned else defaultChoices
            | _ => defaultChoices
          else defaultChoices
        | _ => defaultChoices

/-! ### `GameState.generateChoices` — `src/ai-story-game copy/src/gameState.js` -/

/-- JS `split('\n')` (keeps empty pieces, including a trailing one). -/
def splitLinesAux : List Char → List Char → List String
  | [], acc => [String.mk acc.reverse]
  | c :: cs, acc =>
    if c = '\n' then String.mk acc.reverse :: splitLinesAux cs []
    else splitLinesAux cs (c :: acc)

def splitLines (s : String) : List String := splitLinesAux s.data []

/-- ASCII lower-casing (JS `toLowerCase` on the inputs of the model). -/
def asciiLowerChar (c : Char) : Char :=
  if 'A' ≤ c ∧ c ≤ 'Z' then Char.ofNat (c.toNat + 32) else c

def asciiLower (s : String) : String := String.mk (s.data.map asciiLowerChar)

/-- The catch-block fallback of the copy-variant `generateChoices`
(lines 282-296): split the string `data` into lines, keep those that are
non-blank (`trim().length > 0`, i.e. contain a non-whitespace character)
and free of fence markers and of the words options/choices, and when at
least 3 remain return the first 3 with list markers stripped. -/
def choicesFromLines (s : String) : List JSValue :=
  let lines := (splitLines s).filter (fun line =>
    line.data.any (fun c => ¬ wsChar c) &&
    ¬ hasSubstr line "```" &&
    ¬ hasSubstr (asciiLower line) "options" &&
    ¬ hasSubstr (asciiLower line) "choices")
  if lines.length ≥ 3 then
    (lines.take 3).map (fun line => JSValue.str (stripListMarkers line))
  else defaultChoices

/-- The tail of the copy-variant `generateChoices` try block: JSON-parse
the whole string `data`; a parse failure throws into the catch (line
fallback), a non-empty parsed array is returned, anything else falls out
to the defaults. -/
def choicesFromWholeParse (s : String) : List JSValue :=
  match jsonParse s with
  | none => choicesFromLines s
  | some (.arr xs) => if xs.length > 0 then xs else defaultChoices
  | some _ => defaultChoices

/-- `generateChoices` (copy variant, lines 220-307).  A non-string scene
text short-circuits to the defaults.  On a response with truthy `data`:
array passthrough; for a string `data`, the `/\[.*\]/s` match is
JSON-parsed (failure → catch → line fallback; parsed non-empty array
returned; otherwise the whole string is JSON-parsed the same way);
any other `data` falls to the defaults. -/
def generateChoicesCopy (sceneText : JSValue) (resp : Except String JSValue) :
    List JSValue :=
  if ¬ isStrV sceneText then defaultChoices
  else
    match resp with
    | .error _ => defaultChoices
    | .ok result =>
      let d := getField result "data"
      if truthy result && truthy d then
        match d with
        | .arr xs => if xs.length > 0 then xs else defaultChoices
        | .str s =>
          (match bracketMatch s.data with
           | some cap =>
             (match jsonParse (String.mk cap) with
              | none => choicesFromLines s
              | some (.arr xs) =>
                if xs.length > 0 then xs else choicesFromWholeParse s
              | some _ => choicesFromWholeParse s)
           | none => choicesFromWholeParse s)
        | _ => defaultChoices
      else defaultChoices

/-! ### Scenes and the per-session state machine

`Scene` is the record both `GameState` variants store in
`this.currentScene` (the main variant keeps raw provider responses in
the fields, the copy variant keeps extracted values; both fit in
`JSValue` fields).  `choices` is stored as a `JSValue` so that JS array
indexing applies to it directly. -/

structure Scene where
  text : JSValue
  image : JSValue
  choices : JSValue
deriving Repr, DecidableEq, Inhabited

deriving instance DecidableEq for Except

/-- `process.env.FAL_KEY` as seen by `configureFalClient` (main variant
lines 36-49): absent or empty is falsy and makes it throw. -/
def envKeyOk : Option String → Bool
  | some s => s != ""
  | none => false

/-! ### Main variant (`ai-story-game-main/src/gameState.js`) -/

/-- `generateStoryText` (main variant lines 156-200): on success the raw
response is returned; a rejected call is converted to an object carrying
the fixed fallback `output` and the error message. -/
def generateStoryTextMain (resp : Except String JSValue) : JSValue :=
  match resp with
  | .ok r => r
  | .error m =>
    .obj [("data", .obj [("output",
           .str "The adventure continues... (Error generating story text)")]),
          ("error", .str m)]

/-- `generateStoryImage` (main variant lines 207-247): on success
`result.data` is returned; a rejected call yields `\x7bimages: [],
error\x7d`. -/
def generateStoryImageMain (resp : Except String JSValue) : JSValue :=
  match resp with
  | .ok r => getField r "data"
  | .error m => .obj [("images", .arr []), ("error", .str m)]

/-- The `if (x && x.data && x.data.output) s = x.data.output` extraction
pattern used at main-variant lines 71-74, 111-114 and 131-134 (the
variable is initialised to the empty string). -/
def dataOutputOf (v : JSValue) : JSValue :=
  let d := getField v "data"
  let o := getField d "output"
  if truthy v && truthy d && truthy o then o else .str ""

/-- Result of one main-variant `makeChoice` step: the final engine state
(`currentScene`, `history`), the outcome as observed by the caller, and
the choice label that was selected for story generation. -/
structure MainStep where
  currentScene : Scene
  history : List Scene
  outcome : Except String Scene
  selected : JSValue
deriving Repr, DecidableEq

/-- `makeChoice` (main variant lines 95-148).  `configureFalClient` throws
before any mutation when the key is missing.  The previous scene is
pushed, the selection falls back to `DEFAULT_CHOICES[choiceIndex % 3]`
when `choices[choiceIndex]` is falsy, and the new scene stores the raw
text/image responses plus the generated choices.  When the processed
text response carries a truthy non-string `data.output`, the
`.substring` call building the image prompt throws a TypeError after the
history push (uncaught in `makeChoice`). -/
def makeChoiceMain (falKey : Option String) (cur : Scene) (hist : List Scene)
    (choiceIndex : Int) (textResp imageResp choicesResp : Except String JSValue) :
    MainStep :=
  if ¬ envKeyOk falKey then
    ⟨cur, hist, .error "FAL_KEY environment variable not set", .undefined⟩
  else
    let hist2 := hist ++ [cur]
    let selected :=
      if isArrayV cur.choices && truthy (jsIndex cur.choices choiceIndex) then
        jsIndex cur.choices choiceIndex
      else jsIndex (.arr defaultChoices) (jsRemInt choiceIndex 3)
    let textResult := generateStoryTextMain textResp
    let tOut := getField (getField textResult "data") "output"
    if truthy textResult && truthy (getField textResult "data") && truthy tOut
        && !(isStrV tOut) then
      ⟨cur, hist2, .error "TypeError: output.substring is not a function", selected⟩
    else
      let imageResult := generateStoryImageMain imageResp
      let storyText := dataOutputOf textResult
      let newChoices := generateChoicesMain storyText choicesResp
      let sc : Scene := ⟨textResult, imageResult, .arr newChoices⟩
      ⟨sc, hist2, .ok sc, selected⟩

/-- `startNewGame` (main variant lines 55-88): generation of the opening
scene, storing the raw responses; throws before any generation when the
key is missing. -/
def startNewGameMain (falKey : Option String)
    (textResp imageResp choicesResp : Except String JSValue) :
    Except String Scene :=
  if ¬ envKeyOk falKey then .error "FAL_KEY environment variable not set"
  else
    let textResult := generateStoryTextMain textResp
    let imageResult := generateStoryImageMain imageResp
    let storyText := dataOutputOf textResult
    let choicesResult := generateChoicesMain storyText choicesResp
    .ok ⟨textResult, imageResult, .arr choicesResult⟩

/-! ### Copy variant (`ai-story-game copy/src/gameState.js`) -/

/-- Result of the copy-variant `generateStoryText` (lines 38-105): the
`success` flag and the extracted `text` (requestId and the raw response
are kept by the source only for debugging). -/
structure TextResultCopy where
  success : Bool
  text : JSValue
deriving Repr, DecidableEq

/-- `generateStoryText` (copy variant lines 38-105).  On success the text
is extracted from `result.data`: a string directly; an object through the
`text`/`content`/`response`/`message` cascade then `JSON.stringify`; any
other type through `String(_)`; a falsy `result`/`data` leaves the
initial empty string.  A rejected call yields the fixed failure text. -/
def generateStoryTextCopy (resp : Except String JSValue) : TextResultCopy :=
  match resp with
  | .error _ =>
    ⟨false, .str "Failed to generate story text. The journey continues..."⟩
  | .ok result =>
    let d := getField result "data"
    let storyText : JSValue :=
      if truthy result && truthy d then
        match d with
        | .str _ => d
        | .obj _ | .arr _ =>
          if truthy (getField d "text") then getField d "text"
          else if truthy (getField d "content") then getField d "content"
          else if truthy (getField d "response") then getField d "response"
          else if truthy (getField d "message") then getField d "message"
          else .str (jsStringifyD d)
        | _ => .str (jsToString d)
      else .str ""
    ⟨true, storyText⟩

/-- Result of one copy-variant `makeChoice` step (mirrors `MainStep`). -/
structure CopyStep where
  currentScene : Scene
  history : List Scene
  outcome : Except String Scene
  selected : JSValue
deriving Repr, DecidableEq

/-- `makeChoice` (copy variant lines 182-218).  The previous scene is
pushed onto `history` first; a falsy `currentScene.choices[choiceIndex]`
then throws `Invalid choice index` (leaving the push in place).
Otherwise text, image and choices are generated and the scene is
replaced, with fixed fallback text when text generation failed. -/
def makeChoiceCopy (cur : Scene) (hist : List Scene) (choiceIndex : Int)
    (textResp imageResp choicesResp : Except String JSValue) : CopyStep :=
  let hist2 := hist ++ [cur]
  let selected := jsIndex cur.choices choiceIndex
  if ¬ truthy selected then
    ⟨cur, hist2, .error "Invalid choice index", selected⟩
  else
    let textResult := generateStoryTextCopy textResp
    let imageOk : Bool := match imageResp with | .ok _ => true | .error _ => false
    let imageData : JSValue :=
      match imageResp with | .ok r => getField r "data" | .error _ => .null
    let newChoices := generateChoicesCopy textResult.text choicesResp
    let newScene : Scene :=
      ⟨(if textResult.success then textResult.text
        else .str "The adventure continues as you make your choice. What will you do next?"),
       (if imageOk then imageData else .null),
       .arr newChoices⟩
    ⟨newScene, hist2, .ok newScene, selected⟩

/-- The fixed opening choices of the copy-variant `startNewGame`
(lines 158-162). -/
def initialChoicesCopy : List JSValue :=
  [.str "Follow the faint glowing light in the distance",
   .str "Set up camp and wait until morning",
   .str "Climb a tree to get a better view"]

/-- `startNewGame` (copy variant lines 155-180): fixed opening context and
choices; text and image from the two generation calls with fixed
fallbacks. -/
def startNewGameCopy (textResp imageResp : Except String JSValue) : Scene :=
  let textResult := generateStoryTextCopy textResp
  let imageOk : Bool := match imageResp with | .ok _ => true | .error _ => false
  let imageData : JSValue :=
    match imageResp with | .ok r => getField r "data" | .error _ => .null
  ⟨(if textResult.success then textResult.text
    else .str "As you stand in the mysterious forest, you feel a sense of adventure ahead. The path branches in several directions, each offering its own mysteries to uncover."),
   (if imageOk then imageData else .null),
   .arr initialChoicesCopy⟩

/-! ### HTTP layer (both servers)

A session registry entry pairs the generated id with the engine state;
`mapSet` models `Map.prototype.set` (replace on an existing key, append
otherwise) and `List.lookup` models `Map.prototype.get`. -/

structure HttpResponse where
  status : Nat
  body : JSValue
deriving Repr, DecidableEq

structure Engine where
  currentScene : Option Scene
  history : List Scene
deriving Repr, DecidableEq

def mapSet (m : List (String × Engine)) (k : String) (v : Engine) :
    List (String × Engine) :=
  if (m.lookup k).isSome then m.map (fun p => if p.1 = k then (k, v) else p)
  else m ++ [(k, v)]

structure HandlerOut where
  response : HttpResponse
  sessions : List (String × Engine)
deriving Repr, DecidableEq

structure StartOut where
  sessionId : String
  response : HttpResponse
  sessions : List (String × Engine)
deriving Repr, DecidableEq

/-- The speaker-tag formatting step of part_000 `generateSpeech`
(lines 107-112): prefix `[S1] ` when no speaker tag occurs in the
text (this value feeds the outbound TTS call). -/
def speechInputP0 (text : String) : String :=
  if ¬ (hasSubstr text "[S1]" || hasSubstr text "[S2]") then "[S1] " ++ text
  else text

/-- `generateSpeech` (part_000 lines 102-142).  A non-string `text` makes
`text.substring` throw inside the try, yielding `null`; a rejected call
yields `null`; otherwise `result.data.audio.url` is returned when
present and truthy (reading `.url` of a missing `audio` throws into the
same catch → `null`). -/
def generateSpeechP0 (text : JSValue) (resp : Except String JSValue) : JSValue :=
  match text with
  | .str _ =>
    (match resp with
     | .error _ => .null
     | .ok r =>
       let d := getField r "data"
       if truthy d then
         match getField d "audio" with
         | .undefined => .null
         | .null => .null
         | a => if truthy (getField a "url") then getField a "url" else .null
       else .null)
  | _ => .null

/-- The image-URL extraction both handlers perform on a scene
(`scene.image && scene.image.images && images.length > 0 →
images[0].url`; the copy server additionally checks `Array.isArray`,
which does not change the result on the modelled values). -/
def imageUrlFrom (img : JSValue) : JSValue :=
  if truthy img then
    match getField img "images" with
    | .arr (x :: _) => getField x "url"
    | _ => .null
  else .null

/-- `POST /api/game/choice` (copy server, index.js lines 204-241).  An
unknown `sessionId` returns 404 before any engine call; an engine whose
`currentScene` is still null throws reading `.choices` (route catch →
500); a thrown `makeChoice` becomes a 500 with the engine mutation (the
history push) retained; a successful step yields the normalized scene. -/
def choiceHandlerCopy (sessions : List (String × Engine)) (sessionId : String)
    (choiceIndex : Int) (textResp imageResp choicesResp : Except String JSValue) :
    HandlerOut :=
  match sessions.lookup sessionId with
  | none => ⟨⟨404, .obj [("error", .str "Game session not found")]⟩, sessions⟩
  | some g =>
    match g.currentScene with
    | none => ⟨⟨500, .obj [("error", .str "Failed to process choice")]⟩, sessions⟩
    | some cur =>
      let step := makeChoiceCopy cur g.history choiceIndex textResp imageResp choicesResp
      let g2 : Engine := ⟨some step.currentScene, step.history⟩
      match step.outcome with
      | .error _ =>
        ⟨⟨500, .obj [("error", .str "Failed to process choice")]⟩,
         mapSet sessions sessionId g2⟩
      | .ok sc =>
        ⟨⟨200, .obj [("sessionId", .str sessionId),
                     ("text", extractText sc.text),
                     ("imageUrl", imageUrlFrom sc.image),
                     ("choices", .arr (extractChoices sc.choices))]⟩,
         mapSet sessions sessionId g2⟩

/-- `POST /api/game/choice` (part_000 lines 190-234; its `GameState` is
the main variant, whose scenes store raw responses).  Same 404/500
structure as the copy server, plus TTS. -/
def choiceHandlerP0 (sessions : List (String × Engine)) (sessionId : String)
    (choiceIndex : Int) (falKey : Option String)
    (textResp imageResp choicesResp speechResp : Except String JSValue) :
    HandlerOut :=
  match sessions.lookup sessionId with
  | none => ⟨⟨404, .obj [("error", .str "Game session not found")]⟩, sessions⟩
  | some g =>
    match g.currentScene with
    | none => ⟨⟨500, .obj [("error", .str "Failed to process choice")]⟩, sessions⟩
    | some cur =>
      let step := makeChoiceMain falKey cur g.history choiceIndex textResp imageResp choicesResp
      let g2 : Engine := ⟨some step.currentScene, step.history⟩
      match step.outcome with
      | .error _ =>
        ⟨⟨500, .obj [("error", .str "Failed to process choice")]⟩,
         mapSet sessions sessionId g2⟩
      | .ok sc =>
        let storyText := dataOutputOf sc.text
        ⟨⟨200, .obj [("sessionId", .str sessionId),
                     ("text", storyText),
                     ("imageUrl", imageUrlFrom sc.image),
                     ("audioUrl", generateSpeechP0 storyText speechResp),
                     ("choices", .arr (extractChoicesP0 sc.choices))]⟩,
         mapSet sessions sessionId g2⟩

/-- `POST /api/game/start` (copy server, index.js lines 166-201).  The
session id is `Date.now().toString()` — the request arrival time in
milliseconds, passed here as `now`. -/
def startHandlerCopy (now : Nat) (sessions : List (String × Engine))
    (textResp imageResp : Except String JSValue) : StartOut :=
  let sessionId := toString now
  let scene := startNewGameCopy textResp imageResp
  let sessions2 := mapSet sessions sessionId ⟨some scene, []⟩
  ⟨sessionId,
   ⟨200, .obj [("sessionId", .str sessionId),
               ("text", extractText scene.text),
               ("imageUrl", imageUrlFrom scene.image),
               ("choices", .arr (extractChoices scene.choices))]⟩,
   sessions2⟩

/-- `POST /api/game/start` (part_000 lines 145-187, engine = main
variant).  A throwing `startNewGame` reaches the catch before
`gameSessions.set`, so nothing is stored. -/
def startHandlerP0 (now : Nat) (sessions : List (String × Engine))
    (falKey : Option String)
    (textResp imageResp choicesResp speechResp : Except String JSValue) : StartOut :=
  let sessionId := toString now
  match startNewGameMain falKey textResp imageResp choicesResp with
  | .error _ => ⟨sessionId, ⟨500, .obj [("error", .str "Failed to start game")]⟩, sessions⟩
  | .ok scene =>
    let sessions2 := mapSet sessions sessionId ⟨some scene, []⟩
    let storyText := dataOutputOf scene.text
    ⟨sessionId,
     ⟨200, .obj [("sessionId", .str sessionId),
                 ("text", storyText),
                 ("imageUrl", imageUrlFrom scene.image),
                 ("audioUrl", generateSpeechP0 storyText speechResp),
                 ("choices", .arr (extractChoicesP0 scene.choices))]⟩,
     sessions2⟩

/-- A text-generation outcome whose copy-variant extraction is a plain
non-empty string: either the call failed (fixed fallback string) or the
resolved response carries a non-empty string `data`. -/
def textDataPlainString : Except String JSValue → Bool
  | .error _ => true
  | .ok r => isNonEmptyStr (getField r "data")

/-- A processed text response that cannot make the main-variant
`makeChoice` image-prompt `.substring` throw: either the call failed (the
fallback carries a string `output`) or the resolved response has a falsy
or string `data.output`. -/
def textRespSafe : Except String JSValue → Bool
  | .error _ => true
  | .ok r =>
    let o := getField (getField r "data") "output"
    !(truthy o) || isStrV o

/-- The outcome of a step is a normally returned scene (no throw). -/
def okOutcome : Except String Scene → Bool
  | .ok _ => true
  | .error _ => false

/-- Characters allowed in the three choice strings of the round-trip
statement: printable (no control characters, nor the line terminators
U+2028 and U+2029) and free of the characters that are structural for the
extraction cascade (double quote, backslash, backtick, square brackets). -/
def goodChoiceChar (c : Char) : Bool :=
  decide (32 ≤ c.toNat) && c != '"' && c != '\\' &&
  decide (c.toNat ≠ 96) && c != '[' && c != ']' &&
  decide (c.toNat ≠ 8232) && decide (c.toNat ≠ 8233)

/-- A provider payload whose sole content is a ```json fenced code block
holding the JSON array `["a", "b", "c"]`. -/
def fencedPayload (a b c : String) : String :=
  String.mk ("```json\n[".data ++ ('"' :: (a.data ++ ('"' :: ',' :: ' ' ::
    '"' :: (b.data ++ ('"' :: ',' :: ' ' :: '"' :: (c.data ++
    ('"' :: ']' :: '\n' :: "```".data))))))))

/-! ### Helper lemmas -/

theorem toDigitsCore_length_ge (b f n : Nat) (acc : List Char) :
    acc.length ≤ (Nat.toDigitsCore b f n acc).length := by
  induction f generalizing n acc with
  | zero => simp [Nat.toDigitsCore]
  | succ f ih =>
    simp only [Nat.toDigitsCore]
    split
    · simp
    · calc acc.length ≤ (Nat.digitChar (n % b) :: acc).length := by simp
        _ ≤ _ := ih _ _

theorem toDigits_ne_nil (b n : Nat) : Nat.toDigits b n ≠ [] := by
  unfold Nat.toDigits
  intro h
  unfold Nat.toDigitsCore at h
  by_cases hz : n / b = 0
  · simp [hz] at h
  · simp only [hz, if_false] at h
    have := toDigitsCore_length_ge b n (n / b) [(n % b).digitChar]
    rw [h] at this
    simp at this

theorem natRepr_ne_empty (n : Nat) : Nat.repr n ≠ "" := by
  unfold Nat.repr
  intro h
  have h2 : (Nat.toDigits 10 n).asString.data = ("" : String).data := by rw [h]
  simp [List.asString] at h2
  exact toDigits_ne_nil 10 n h2

theorem stringDashAppend_ne_empty (b : String) : "-" ++ b ≠ "" := by
  intro hab
  have h2 : (("-" : String) ++ b).data = ("" : String).data := by rw [hab]
  rw [String.data_append] at h2
  simp at h2

theorem intToString_ne_empty (n : Int) : toString n ≠ "" := by
  match n with
  | .ofNat m =>
    show Int.repr (.ofNat m) ≠ ""
    simpa [Int.repr] using natRepr_ne_empty m
  | .negSucc m =>
    show Int.repr (.negSucc m) ≠ ""
    simp only [Int.repr]
    exact stringDashAppend_ne_empty _

theorem stringAppend_left_ne_empty (a b : String) (h : a ≠ "") : a ++ b ≠ "" := by
  intro hab
  apply h
  have h2 : (a ++ b).data = ("" : String).data := by rw [hab]
  rw [String.data_append] at h2
  rcases List.append_eq_nil.mp h2 with ⟨h3, _⟩
  cases a
  simp_all

/-- The JSON serialization of a truthy value is never the empty string. -/
theorem jsStringifyD_truthy_ne_empty (v : JSValue) (h : truthy v = true) :
    jsStringifyD v ≠ "" := by
  cases v with
  | undefined => simp [truthy] at h
  | null => intro hc; simp [jsStringifyD, jsStringifyV] at hc
  | bool b =>
    cases b
    · simp [truthy] at h
    · intro hc; simp [jsStringifyD, jsStringifyV] at hc
  | num n => exact fun hc => intToString_ne_empty n (by simpa [jsStringifyD, jsStringifyV] using hc)
  | str s =>
    simp only [jsStringifyD, jsStringifyV, Option.getD_some]
    exact stringAppend_left_ne_empty "\"" _ (by decide)
  | arr xs =>
    simp only [jsStringifyD, jsStringifyV, Option.getD_some]
    exact stringAppend_left_ne_empty "[" _ (by decide)
  | obj fs =>
    simp only [jsStringifyD, jsStringifyV, Option.getD_some]
    exact stringAppend_left_ne_empty "\x7b" _ (by decide)

/-! ### Claim theorems -/

/-- C3: a choices response with no usable payload returns the literal
default triple in both server extraction functions — in particular every
plain-string response (such as "no quotes or brackets here"), since a
string is neither an array nor a `typeof 'object'` value — and the one
exception reachable during inspection in the model (part_000 logging an
`undefined` response, where `JSON.stringify(undefined).substring` throws)
is caught and returns the same literal triple. -/
theorem c3_no_payload_yields_default_triple :
    (∀ s : String, extractChoices (.str s) = defaultChoices ∧
        extractChoicesP0 (.str s) = defaultChoices) ∧
    extractChoicesP0 .undefined = defaultChoices ∧
    defaultChoices = [.str "Continue exploring", .str "Take a different path",
        .str "Stop and observe your surroundings"] := by
  refine ⟨fun s => ⟨rfl, rfl⟩, rfl, rfl⟩

/-- C8: a `POST /api/game/choice` whose `sessionId` is not a key of the
session map answers 404 with the fixed error body on both servers, leaves
the session map unchanged, and invokes no engine (the response and final
map do not depend on any of the engine/provider parameters). -/
theorem c8_unknown_session_404 (sessions : List (String × Engine))
    (sessionId : String) (choiceIndex : Int) (falKey : Option String)
    (tr ir cr tr2 ir2 cr2 sp : Except String JSValue)
    (h : sessions.lookup sessionId = none) :
    choiceHandlerCopy sessions sessionId choiceIndex tr ir cr =
      ⟨⟨404, .obj [("error", .str "Game session not found")]⟩, sessions⟩ ∧
    choiceHandlerP0 sessions sessionId choiceIndex falKey tr2 ir2 cr2 sp =
      ⟨⟨404, .obj [("error", .str "Game session not found")]⟩, sessions⟩ := by
  constructor
  · unfold choiceHandlerCopy
    rw [h]
  · unfold choiceHandlerP0
    rw [h]

theorem c8_unknown_session_404_witness :
    ([] : List (String × Engine)).lookup "missing" = none ∧
    choiceHandlerCopy [] "missing" 1 (.error "net") (.error "net") (.error "net") =
      ⟨⟨404, .obj [("error", .str "Game session not found")]⟩, []⟩ :=
  ⟨rfl, (c8_unknown_session_404 [] "missing" 1 none (.error "net") (.error "net")
      (.error "net") (.error "net") (.error "net") (.error "net") (.error "net") rfl).1⟩

/-- C9 (code bug): two `POST /api/game/start` requests handled in the same
millisecond get the same `Date.now().toString()` session id, and storing
the second engine overwrites the first: after both starts the registry
holds only the engine of the second request. -/
theorem c9_same_instant_ids_collide :
    (startHandlerCopy 1717171717 [] (.ok (.obj [("data", .str "scene A")]))
        (.error "img")).sessionId =
      (startHandlerCopy 1717171717
        (startHandlerCopy 1717171717 [] (.ok (.obj [("data", .str "scene A")]))
          (.error "img")).sessions
        (.ok (.obj [("data", .str "scene B")])) (.error "img")).sessionId ∧
    (startHandlerCopy 1717171717
        (startHandlerCopy 1717171717 [] (.ok (.obj [("data", .str "scene A")]))
          (.error "img")).sessions
        (.ok (.obj [("data", .str "scene B")])) (.error "img")).sessions =
      [("1717171717", ⟨some ⟨.str "scene B", .null, .arr initialChoicesCopy⟩, []⟩)] ∧
    (JSValue.str "scene A") ≠ (JSValue.str "scene B") := by
  refine ⟨rfl, by decide, by decide⟩

/-- C10: the copy-variant `makeChoice` pushes the current scene onto
`history` before validating the index, so a falsy
`currentScene.choices[choiceIndex]` throws `Invalid choice index` while
leaving `history` exactly one entry longer and `currentScene`
unchanged. -/
theorem c10_error_after_push (cur : Scene) (hist : List Scene) (idx : Int)
    (tr ir cr : Except String JSValue)
    (h : truthy (jsIndex cur.choices idx) = false) :
    makeChoiceCopy cur hist idx tr ir cr =
      ⟨cur, hist ++ [cur], .error "Invalid choice index", jsIndex cur.choices idx⟩ := by
  unfold makeChoiceCopy
  simp [h]

theorem c10_error_after_push_witness :
    truthy (jsIndex (JSValue.arr defaultChoices) 5) = false ∧
    makeChoiceCopy ⟨.str "scene", .null, .arr defaultChoices⟩ [] 5
        (.error "net") (.error "net") (.error "net") =
      ⟨⟨.str "scene", .null, .arr defaultChoices⟩,
       [⟨.str "scene", .null, .arr defaultChoices⟩],
       .error "Invalid choice index", .undefined⟩ :=
  ⟨by decide, c10_error_after_push ⟨.str "scene", .null, .arr defaultChoices⟩ [] 5
      (.error "net") (.error "net") (.error "net") (by decide)⟩

theorem tmod_negSucc_lt_zero (m : Nat) (hd : ¬ (3:Int) ∣ Int.negSucc m) :
    Int.tmod (Int.negSucc m) 3 < 0 := by
  have he : Int.tmod (Int.negSucc m) 3 = -(((m + 1) % 3 : Nat) : Int) := rfl
  rw [he]
  have hnd : ¬ (3 ∣ (m + 1)) := by
    intro hdvd
    apply hd
    have h1 : (3:Int) ∣ ((m + 1 : Nat) : Int) := Int.natCast_dvd_natCast.mpr hdvd
    have h2 : Int.negSucc m = -((m + 1 : Nat) : Int) := by
      simp [Int.negSucc_eq]
    rw [h2]
    exact dvd_neg.mpr h1
  have : (m + 1) % 3 ≠ 0 := fun hc => hnd (Nat.dvd_of_mod_eq_zero hc)
  omega

/-- C5 counterexample: the copy-variant `makeChoice` throws
`Invalid choice index` on an out-of-range index instead of resolving a
default choice. -/
theorem c5_counterexample :
    (makeChoiceCopy ⟨.str "scene", .null, .arr defaultChoices⟩ [] 7
        (.error "net") (.error "net") (.error "net")).outcome =
      .error "Invalid choice index" := by decide

/-- C5 amended: in the main variant, with the FAL key configured and a
text response that cannot raise the unrelated image-prompt TypeError, a
`makeChoice` whose `choices[index]` is falsy never throws; a non-negative
index selects `DEFAULT_CHOICES[index % 3]` (one of the three defaults),
a negative index not divisible by 3 has a negative JS remainder so the
selected action is `undefined` (story generation still proceeds), and a
negative multiple of 3 selects `DEFAULT_CHOICES[0]`.  The copy variant
instead throws (see the counterexample). -/
theorem c5_amended (falKey : Option String) (cur : Scene) (hist : List Scene)
    (idx : Int) (tr ir cr : Except String JSValue)
    (hk : envKeyOk falKey = true)
    (hsafe : textRespSafe tr = true)
    (hsel : truthy (jsIndex cur.choices idx) = false) :
    okOutcome (makeChoiceMain falKey cur hist idx tr ir cr).outcome = true ∧
    (0 ≤ idx →
      (makeChoiceMain falKey cur hist idx tr ir cr).selected =
        jsIndex (.arr defaultChoices) (jsRemInt idx 3) ∧
      (makeChoiceMain falKey cur hist idx tr ir cr).selected ∈ defaultChoices) ∧
    (idx < 0 → ¬ (3:Int) ∣ idx →
      (makeChoiceMain falKey cur hist idx tr ir cr).selected = .undefined) ∧
    (idx < 0 → (3:Int) ∣ idx →
      (makeChoiceMain falKey cur hist idx tr ir cr).selected = .str "Continue exploring") := by
  have hcond : (truthy (generateStoryTextMain tr) &&
      truthy (getField (generateStoryTextMain tr) "data") &&
      truthy (getField (getField (generateStoryTextMain tr) "data") "output") &&
      !(isStrV (getField (getField (generateStoryTextMain tr) "data") "output"))) = false := by
    cases tr with
    | error m => rfl
    | ok r =>
      simp only [textRespSafe, Bool.or_eq_true, Bool.not_eq_true'] at hsafe
      simp only [generateStoryTextMain]
      rcases hsafe with hf | hs
      · simp [hf]
      · simp [hs]
  have hsel2 : (isArrayV cur.choices && truthy (jsIndex cur.choices idx)) = false := by
    simp [hsel]
  have hok : okOutcome (makeChoiceMain falKey cur hist idx tr ir cr).outcome = true := by
    simp [makeChoiceMain, hk, hsel2, hcond, okOutcome]
  have hstep : (makeChoiceMain falKey cur hist idx tr ir cr).selected =
      jsIndex (.arr defaultChoices) (jsRemInt idx 3) := by
    simp [makeChoiceMain, hk, hsel2, hcond]
  refine ⟨hok, ?_, ?_, ?_⟩
  · intro hnn
    have h0 : 0 ≤ Int.tmod idx 3 := Int.tmod_nonneg 3 hnn
    have h3 : Int.tmod idx 3 < 3 := Int.tmod_lt_of_pos idx (by norm_num)
    have hc : Int.tmod idx 3 = 0 ∨ Int.tmod idx 3 = 1 ∨ Int.tmod idx 3 = 2 := by omega
    refine ⟨hstep, ?_⟩
    rw [hstep]
    simp only [jsRemInt]
    rcases hc with h | h | h <;> rw [h] <;> decide
  · intro hneg hnd
    rw [hstep]
    match idx, hneg with
    | .negSucc m, _ =>
      have hlt := tmod_negSucc_lt_zero m hnd
      simp only [jsRemInt, jsIndex]
      rw [if_neg (by omega)]
  · intro hneg hd
    have h0 : Int.tmod idx 3 = 0 := by
      rcases hd with ⟨k, hk2⟩
      subst hk2
      exact Int.mul_tmod_right 3 k
    rw [hstep]
    simp only [jsRemInt]
    rw [h0]
    decide

theorem c5_amended_witness :
    envKeyOk (some "key") = true ∧ textRespSafe (.error "net") = true ∧
    truthy (jsIndex (JSValue.arr defaultChoices) 9) = false ∧
    okOutcome (makeChoiceMain (some "key") ⟨.str "t", .null, .arr defaultChoices⟩ [] 9
        (.error "net") (.error "net") (.error "net")).outcome = true ∧
    (makeChoiceMain (some "key") ⟨.str "t", .null, .arr defaultChoices⟩ [] 9
        (.error "net") (.error "net") (.error "net")).selected ∈ defaultChoices :=
  ⟨by decide, by decide, by decide,
   (c5_amended (some "key") ⟨.str "t", .null, .arr defaultChoices⟩ [] 9
      (.error "net") (.error "net") (.error "net") (by decide) (by decide) (by decide)).1,
   ((c5_amended (some "key") ⟨.str "t", .null, .arr defaultChoices⟩ [] 9
      (.error "net") (.error "net") (.error "net") (by decide) (by decide) (by decide)).2.1
      (by decide)).2⟩

/-- C1 counterexample: the already-array passthrough returns the input
array unchanged — here a 1-element array (length ≠ 3) from both server
extraction functions — and the main-variant `generateChoices` returns
the quoted-substring extractions unpadded/untruncated (here 4 of
them). -/
theorem c1_counterexample :
    extractChoices (.arr [.str "only one"]) = [.str "only one"] ∧
    (extractChoices (.arr [.str "only one"])).length ≠ 3 ∧
    extractChoicesP0 (.arr [.str "only one"]) = [.str "only one"] ∧
    generateChoicesMain (.str "ctx")
        (.ok (.obj [("data", .obj [("output", .str "\"a\" \"b\" \"c\" \"d\"")])])) =
      [.str "a", .str "b", .str "c", .str "d"] := by
  refine ⟨rfl, by decide, rfl, by decide⟩

/-- C1 amended: only part_000's `extractChoices` guarantees exactly 3
entries, and only for non-array responses — its quoted-extraction path
pads with leading defaults below 3 and truncates to the first 3 above,
and every other non-array path returns the 3 defaults; the already-array
path in all variants and the extraction paths of the other two functions
return the extracted entries unchanged, whatever their count. -/
theorem c1_amended (resp : JSValue) (h : isArrayV resp = false) :
    (extractChoicesP0 resp).length = 3 := by
  cases resp with
  | undefined => rfl
  | null => rfl
  | bool b => rfl
  | num n => rfl
  | str s => rfl
  | arr xs => simp [isArrayV] at h
  | obj fs =>
    show (extractChoicesP0 (.obj fs)).length = 3
    simp only [extractChoicesP0]
    split
    · split
      · split
        · split
          · rename_i hpos hlt
            simp only [List.length_append, List.length_take, List.length_map,
              defaultChoices, List.length_cons, List.length_nil] at hpos hlt ⊢
            omega
          · rename_i hpos hge
            simp only [List.length_take, List.length_map] at hpos hge ⊢
            omega
        · rfl
      · rfl
    · rfl

theorem c1_amended_witness :
    isArrayV (JSValue.obj [("data", .obj [("output", .str "\"one\" \"two\"")])]) = false ∧
    (extractChoicesP0 (.obj [("data", .obj [("output", .str "\"one\" \"two\"")])])).length = 3 ∧
    extractChoicesP0 (.obj [("data", .obj [("output", .str "\"one\" \"two\"")])]) =
      [.str "one", .str "two", .str "Continue exploring"] :=
  ⟨by decide, c1_amended (.obj [("data", .obj [("output", .str "\"one\" \"two\"")])]) (by decide),
   by decide⟩

/-- C6: in both variants a `makeChoice` that returns normally appends
exactly one entry — the previous `currentScene` — to `history` (so
existing entries are preserved in order) and overwrites `currentScene`
with the scene it returns. -/
theorem c6_history_append_only (falKey : Option String) (curM curC : Scene)
    (histM histC : List Scene) (idxM idxC : Int)
    (trM irM crM trC irC crC : Except String JSValue)
    (h1 : okOutcome (makeChoiceMain falKey curM histM idxM trM irM crM).outcome = true)
    (h2 : okOutcome (makeChoiceCopy curC histC idxC trC irC crC).outcome = true) :
    (makeChoiceMain falKey curM histM idxM trM irM crM).history = histM ++ [curM] ∧
    (makeChoiceMain falKey curM histM idxM trM irM crM).outcome =
      .ok (makeChoiceMain falKey curM histM idxM trM irM crM).currentScene ∧
    (makeChoiceCopy curC histC idxC trC irC crC).history = histC ++ [curC] ∧
    (makeChoiceCopy curC histC idxC trC irC crC).outcome =
      .ok (makeChoiceCopy curC histC idxC trC irC crC).currentScene := by
  by_cases hk : envKeyOk falKey = true
  · by_cases ht : truthy (jsIndex curC.choices idxC) = true
    · by_cases hc : (truthy (generateStoryTextMain trM) &&
          truthy (getField (generateStoryTextMain trM) "data") &&
          truthy (getField (getField (generateStoryTextMain trM) "data") "output") &&
          !(isStrV (getField (getField (generateStoryTextMain trM) "data") "output"))) = true
      · exfalso
        simp [makeChoiceMain, hk, hc, okOutcome] at h1
      · refine ⟨?_, ?_, ?_, ?_⟩
        · simp [makeChoiceMain, hk, eq_false_of_ne_true hc]
        · simp [makeChoiceMain, hk, eq_false_of_ne_true hc]
        · simp [makeChoiceCopy, ht]
        · simp [makeChoiceCopy, ht]
    · exfalso
      simp [makeChoiceCopy, eq_false_of_ne_true ht, okOutcome] at h2
  · exfalso
    simp [makeChoiceMain, eq_false_of_ne_true hk, okOutcome] at h1

theorem c6_history_append_only_witness :
    okOutcome (makeChoiceMain (some "key") ⟨.str "s", .null, .arr defaultChoices⟩ []
        0 (.error "e") (.error "e") (.error "e")).outcome = true ∧
    okOutcome (makeChoiceCopy ⟨.str "s", .null, .arr defaultChoices⟩ [] 0
        (.error "e") (.error "e") (.error "e")).outcome = true ∧
    (makeChoiceMain (some "key") ⟨.str "s", .null, .arr defaultChoices⟩ [] 0
        (.error "e") (.error "e") (.error "e")).history =
      [] ++ [⟨.str "s", .null, .arr defaultChoices⟩] ∧
    (makeChoiceCopy ⟨.str "s", .null, .arr defaultChoices⟩ [] 0
        (.error "e") (.error "e") (.error "e")).history =
      [] ++ [⟨.str "s", .null, .arr defaultChoices⟩] :=
  ⟨by decide, by decide,
   (c6_history_append_only (some "key") ⟨.str "s", .null, .arr defaultChoices⟩
      ⟨.str "s", .null, .arr defaultChoices⟩ [] [] 0 0 (.error "e") (.error "e")
      (.error "e") (.error "e") (.error "e") (.error "e") (by decide) (by decide)).1,
   (c6_history_append_only (some "key") ⟨.str "s", .null, .arr defaultChoices⟩
      ⟨.str "s", .null, .arr defaultChoices⟩ [] [] 0 0 (.error "e") (.error "e")
      (.error "e") (.error "e") (.error "e") (.error "e") (by decide) (by decide)).2.2.1⟩

/-- C2 counterexample: `extractText` returns the raw object stored under a
truthy non-string `output` field instead of a string. -/
theorem c2_counterexample :
    extractText (.obj [("output", .obj [("a", .num 1)])]) = .obj [("a", .num 1)] ∧
    isStrV (extractText (.obj [("output", .obj [("a", .num 1)])])) = false := by
  exact ⟨rfl, rfl⟩

/-- C2 amended: `extractText` (a total function of the modelled value, so
it terminates and cannot throw) always returns a truthy value — never
`null`/`undefined` and never an empty string; the result is a non-empty
string except when a truthy non-string `output`/`text` field (or parsed
`output`) is selected, in which case that raw truthy value is returned. -/
theorem c2_amended (v : JSValue) : truthy (extractText v) = true := by
  cases v with
  | undefined => decide
  | null => decide
  | bool b => cases b <;> decide
  | num n =>
    simp only [extractText]
    by_cases h : truthy (.num n) = true
    · simp [h]; decide
    · simp [h]; decide
  | str s =>
    simp only [extractText]
    by_cases h : truthy (.str s) = true
    · simp only [h, not_true, if_false]
      cases hp : jsonParse s with
      | none => simpa using h
      | some parsed =>
        by_cases ho : truthy (getField parsed "output") = true
        · simp [ho]
        · simp only [ho, if_false]
          simpa using h
    · simp [h]; decide
  | arr xs =>
    simp only [extractText]
    rw [if_neg (by simp [truthy])]
    show truthy (JSValue.str "The adventure continues...") = true
    decide
  | obj fs =>
    simp only [extractText]
    rw [if_neg (by simp [truthy])]
    by_cases hd : truthy (getField (.obj fs) "data") = true
    · simp only [hd, if_true]
      cases hdd : getField (.obj fs) "data" with
      | undefined => rw [hdd] at hd; simp [truthy] at hd
      | null => rw [hdd] at hd; simp [truthy] at hd
      | bool b =>
        cases b
        · rw [hdd] at hd; simp [truthy] at hd
        · simp only [hdd]
          decide
      | num m =>
        simp only [hdd]
        have : jsStringifyD (.num m) ≠ "" := by
          rw [hdd] at hd
          exact jsStringifyD_truthy_ne_empty _ hd
        simpa [truthy] using this
      | str s2 =>
        simp only [hdd]
        rw [hdd] at hd
        cases hp : jsonParse s2 with
        | none => simpa using hd
        | some parsed =>
          by_cases ho : truthy (getField parsed "output") = true
          · simp [ho]
          · simp only [ho, if_false]
            simpa using hd
      | arr ys =>
        simp only [hdd]
        by_cases ho : truthy (getField (.arr ys) "output") = true
        · simp [ho]
        · simp only [ho, if_false]
          have : jsStringifyD (.arr ys) ≠ "" := jsStringifyD_truthy_ne_empty _ rfl
          simpa [truthy] using this
      | obj gs =>
        simp only [hdd]
        by_cases ho : truthy (getField (.obj gs) "output") = true
        · simp [ho]
        · simp only [ho, if_false]
          have : jsStringifyD (.obj gs) ≠ "" := jsStringifyD_truthy_ne_empty _ rfl
          simpa [truthy] using this
    · simp only [eq_false_of_ne_true hd, if_false]
      by_cases ho : truthy (getField (.obj fs) "output") = true
      · simp [ho]
      · simp only [ho, if_false]
        by_cases ht : truthy (getField (.obj fs) "text") = true
        · simp [ht]
        · simp [ht]; decide

/-- Concrete instance of the C2 amendment: a typical resolved provider
value yields a truthy `extractText` result. -/
theorem c2_amended_witness :
    truthy (extractText (.obj [("data", .obj [("output", .str "Once")])])) = true :=
  c2_amended (.obj [("data", .obj [("output", .str "Once")])])

/-- C7 counterexample: the main-variant `startNewGame` returns a Scene
whose `text` is the raw provider response object, not a string. -/
theorem c7_counterexample :
    startNewGameMain (some "key")
        (.ok (.obj [("data", .obj [("output", .str "Once upon a time")])]))
        (.ok (.obj [("data", .obj [("images", .arr [])])]))
        (.error "choices") =
      .ok ⟨.obj [("data", .obj [("output", .str "Once upon a time")])],
           .obj [("images", .arr [])], .arr defaultChoices⟩ ∧
    isStrV (JSValue.obj [("data", .obj [("output", .str "Once upon a time")])]) = false := by
  refine ⟨by decide, rfl⟩

/-- C7 amended: the invariant holds only for the copy variant, and under
conditions: a normally-returning copy `makeChoice` yields a scene whose
`text` is a non-empty string whenever the text call failed (fixed
fallback) or resolved with a non-empty string `data`.  The main variant
stores the raw provider response object in `text` (see the
counterexample), leaving normalization to the server layer. -/
theorem c7_amended (cur : Scene) (hist : List Scene) (idx : Int)
    (tr ir cr : Except String JSValue)
    (hsel : truthy (jsIndex cur.choices idx) = true)
    (htext : textDataPlainString tr = true) :
    okOutcome (makeChoiceCopy cur hist idx tr ir cr).outcome = true ∧
    isNonEmptyStr (makeChoiceCopy cur hist idx tr ir cr).currentScene.text = true := by
  cases tr with
  | error m =>
    constructor
    · simp [makeChoiceCopy, hsel, okOutcome]
    · simp [makeChoiceCopy, hsel, generateStoryTextCopy]
      decide
  | ok r =>
    cases r with
    | obj gs =>
      cases hg : getField (.obj gs) "data" with
      | str s2 =>
        have hs2 : (s2 != "") = true := by
          have := htext
          simp only [textDataPlainString, hg, isNonEmptyStr] at this
          exact this
        constructor
        · simp [makeChoiceCopy, hsel, okOutcome]
        · simp only [makeChoiceCopy, hsel, generateStoryTextCopy, hg]
          simp [isNonEmptyStr, truthy, hs2]
      | undefined => simp [textDataPlainString, hg, isNonEmptyStr] at htext
      | null => simp [textDataPlainString, hg, isNonEmptyStr] at htext
      | bool b => simp [textDataPlainString, hg, isNonEmptyStr] at htext
      | num m => simp [textDataPlainString, hg, isNonEmptyStr] at htext
      | arr ys => simp [textDataPlainString, hg, isNonEmptyStr] at htext
      | obj hs => simp [textDataPlainString, hg, isNonEmptyStr] at htext
    | undefined => simp [textDataPlainString, getField, isNonEmptyStr] at htext
    | null => simp [textDataPlainString, getField, isNonEmptyStr] at htext
    | bool b => simp [textDataPlainString, getField, isNonEmptyStr] at htext
    | num m => simp [textDataPlainString, getField, isNonEmptyStr] at htext
    | str s2 => simp [textDataPlainString, getField, isNonEmptyStr] at htext
    | arr ys => simp [textDataPlainString, getField, isNonEmptyStr] at htext

theorem c7_amended_witness :
    truthy (jsIndex (JSValue.arr defaultChoices) 0) = true ∧
    textDataPlainString (.error "net") = true ∧
    isNonEmptyStr (makeChoiceCopy ⟨.str "s", .null, .arr defaultChoices⟩ [] 0
        (.error "net") (.error "net") (.error "net")).currentScene.text = true :=
  ⟨by decide, by decide,
   (c7_amended ⟨.str "s", .null, .arr defaultChoices⟩ [] 0
      (.error "net") (.error "net") (.error "net") (by decide) (by decide)).2⟩

theorem goodChoiceChar_spec (c : Char) (h : goodChoiceChar c = true) :
    c ≠ '"' ∧ c ≠ '\\' ∧ c ≠ '\n' ∧ c ≠ '\r' ∧ c ≠ '[' ∧ c ≠ ']' ∧
    c.toNat ≠ 96 ∧ 32 ≤ c.toNat ∧ c.toNat ≠ 8232 ∧ c.toNat ≠ 8233 := by
  simp only [goodChoiceChar, Bool.and_eq_true, decide_eq_true_eq, bne_iff_ne, ne_eq] at h
  obtain ⟨⟨⟨⟨⟨⟨⟨h32, hq⟩, hb⟩, h96⟩, hlb⟩, hrb⟩, h28⟩, h29⟩ := h
  refine ⟨hq, hb, ?_, ?_, hlb, hrb, h96, h32, h28, h29⟩
  · intro hc; subst hc; exact absurd h32 (by decide)
  · intro hc; subst hc; exact absurd h32 (by decide)

theorem stringMk_data (s : String) : String.mk s.data = s := rfl

theorem quotedScanAux_skip (cs : List Char) : ∀ (rest : List Char),
    (∀ c ∈ cs, c ≠ '"') →
    quotedScanAux (cs ++ rest) none = quotedScanAux rest none := by
  induction cs with
  | nil => intro rest _; rfl
  | cons c cs ih =>
    intro rest h
    have hc : c ≠ '"' := h c (by simp)
    simp only [List.cons_append, quotedScanAux]
    rw [if_neg (by simpa using hc)]
    exact ih rest (fun d hd => h d (by simp [hd]))

theorem quotedScanAux_body (cs : List Char) : ∀ (rest acc : List Char),
    (∀ c ∈ cs, c ≠ '"' ∧ c ≠ '\n' ∧ c ≠ '\r' ∧ c.toNat ≠ 8232 ∧ c.toNat ≠ 8233) →
    quotedScanAux (cs ++ '"' :: rest) (some acc) =
      String.mk (acc.reverse ++ cs) :: quotedScanAux rest none := by
  induction cs with
  | nil =>
    intro rest acc _
    simp [quotedScanAux]
  | cons c cs ih =>
    intro rest acc h
    obtain ⟨hq, hn, hr, h28, h29⟩ := h c (by simp)
    simp only [List.cons_append, quotedScanAux]
    rw [if_neg (by simpa using hq)]
    rw [if_neg (by simp [hn, hr, h28, h29])]
    show quotedScanAux (cs ++ '"' :: rest) (some (c :: acc)) = _
    rw [ih rest (c :: acc) (fun d hd => h d (by simp [hd]))]
    simp

/-- The quoted-substring scan of the fenced payload recovers exactly the
three choice strings, in order. -/
theorem quotedScan_fencedPayload (a b c : String)
    (ha : a.data.all goodChoiceChar = true)
    (hb : b.data.all goodChoiceChar = true)
    (hc : c.data.all goodChoiceChar = true) :
    quotedScan (fencedPayload a b c) = [a, b, c] := by
  have spec : ∀ (s : String), s.data.all goodChoiceChar = true →
      ∀ ch ∈ s.data, ch ≠ '"' ∧ ch ≠ '\n' ∧ ch ≠ '\r' ∧
        ch.toNat ≠ 8232 ∧ ch.toNat ≠ 8233 := by
    intro s hs ch hch
    have := List.all_eq_true.mp hs ch hch
    obtain ⟨h1, _, h3, h4, _, _, _, _, h9, h10⟩ := goodChoiceChar_spec ch this
    exact ⟨h1, h3, h4, h9, h10⟩
  show quotedScanAux (fencedPayload a b c).data none = [a, b, c]
  show quotedScanAux ("```json\n[".data ++ ('"' :: (a.data ++ ('"' :: ',' :: ' ' ::
    '"' :: (b.data ++ ('"' :: ',' :: ' ' :: '"' :: (c.data ++
    ('"' :: ']' :: '\n' :: "```".data)))))))) none = [a, b, c]
  rw [quotedScanAux_skip "```json\n[".data _ (by decide)]
  show quotedScanAux (a.data ++ ('"' :: (',' :: ' ' ::
    '"' :: (b.data ++ ('"' :: ',' :: ' ' :: '"' :: (c.data ++
    ('"' :: ']' :: '\n' :: "```".data))))))) (some []) = [a, b, c]
  rw [quotedScanAux_body a.data _ [] (spec a ha)]
  simp only [List.nil_append, stringMk_data]
  show a :: quotedScanAux ([',', ' '] ++ ('"' :: (b.data ++ ('"' :: ',' :: ' ' ::
    '"' :: (c.data ++ ('"' :: ']' :: '\n' :: "```".data)))))) none = [a, b, c]
  rw [quotedScanAux_skip [',', ' '] _ (by decide)]
  show a :: quotedScanAux (b.data ++ ('"' :: (',' :: ' ' ::
    '"' :: (c.data ++ ('"' :: ']' :: '\n' :: "```".data))))) (some []) = [a, b, c]
  rw [quotedScanAux_body b.data _ [] (spec b hb)]
  simp only [List.nil_append, stringMk_data]
  show a :: b :: quotedScanAux ([',', ' '] ++ ('"' :: (c.data ++
    ('"' :: ']' :: '\n' :: "```".data)))) none = [a, b, c]
  rw [quotedScanAux_skip [',', ' '] _ (by decide)]
  show a :: b :: quotedScanAux (c.data ++ ('"' :: (']' :: '\n' :: "```".data))) (some []) = [a, b, c]
  rw [quotedScanAux_body c.data _ [] (spec c hc)]
  simp only [List.nil_append, stringMk_data]
  show a :: b :: c :: quotedScanAux ([']', '\n'] ++ "```".data) none = [a, b, c]
  rw [quotedScanAux_skip [']', '\n'] _ (by decide)]
  rfl

theorem dropPrefixChars_append (p : List Char) : ∀ (r : List Char),
    dropPrefixChars p (p ++ r) = some r := by
  induction p with
  | nil => intro r; rfl
  | cons c p ih =>
    intro r
    simp only [List.cons_append, dropPrefixChars, if_pos rfl]
    exact ih r

theorem fenceFindClose_first (cs : List Char) : ∀ (rest : List Char),
    (∀ c ∈ cs, c ≠ ']') → fenceCloseOk rest = true →
    fenceFindClose (cs ++ ']' :: rest) = some (cs, rest) := by
  induction cs with
  | nil =>
    intro rest _ hok
    simp [fenceFindClose, hok]
  | cons c cs ih =>
    intro rest h hok
    have hc : c ≠ ']' := h c (by simp)
    simp only [List.cons_append, fenceFindClose]
    rw [if_neg (by simp [hc])]
    show (match fenceFindClose (cs ++ ']' :: rest) with
      | some (body, r) => some (c :: body, r)
      | none => none) = some (c :: cs, rest)
    rw [ih rest (fun d hd => h d (by simp [hd])) hok]

/-- The bracketed JSON-array text inside the payload (capture group 1 of
the fenced-block regex, and also the `/\\[.*\\]/s` match). -/
def payloadCapture (a b c : String) : List Char :=
  '[' :: ('"' :: (a.data ++ ('"' :: ',' :: ' ' ::
    '"' :: (b.data ++ ('"' :: ',' :: ' ' :: '"' :: (c.data ++ ['"'])))))) ++ [']']

theorem fenceSearch_of_matchAt (cs cap : List Char)
    (hne : cs ≠ []) (h : fenceMatchAt cs = some cap) :
    fenceSearch cs = some cap := by
  match cs, hne with
  | ch :: rest, _ => simp [fenceSearch, h]

/-- The fenced-block regex on the payload captures exactly the bracketed
JSON-array text. -/
theorem fenceSearch_fencedPayload (a b c : String)
    (ha : a.data.all goodChoiceChar = true)
    (hb : b.data.all goodChoiceChar = true)
    (hc : c.data.all goodChoiceChar = true) :
    fenceSearch (fencedPayload a b c).data = some (payloadCapture a b c) := by
  have spec : ∀ (s : String), s.data.all goodChoiceChar = true →
      ∀ ch ∈ s.data, ch ≠ ']' := by
    intro s hs ch hch
    exact (goodChoiceChar_spec ch (List.all_eq_true.mp hs ch hch)).2.2.2.2.2.1
  have hmem : ∀ ch ∈ ('"' :: (a.data ++ ('"' :: ',' :: ' ' ::
      '"' :: (b.data ++ ('"' :: ',' :: ' ' :: '"' :: (c.data ++ ['"'])))))), ch ≠ ']' := by
    refine List.forall_mem_cons.mpr ⟨by decide, ?_⟩
    refine List.forall_mem_append.mpr ⟨spec a ha, ?_⟩
    refine List.forall_mem_cons.mpr ⟨by decide, ?_⟩
    refine List.forall_mem_cons.mpr ⟨by decide, ?_⟩
    refine List.forall_mem_cons.mpr ⟨by decide, ?_⟩
    refine List.forall_mem_cons.mpr ⟨by decide, ?_⟩
    refine List.forall_mem_append.mpr ⟨spec b hb, ?_⟩
    refine List.forall_mem_cons.mpr ⟨by decide, ?_⟩
    refine List.forall_mem_cons.mpr ⟨by decide, ?_⟩
    refine List.forall_mem_cons.mpr ⟨by decide, ?_⟩
    refine List.forall_mem_cons.mpr ⟨by decide, ?_⟩
    refine List.forall_mem_append.mpr ⟨spec c hc, ?_⟩
    intro ch hch
    simp only [List.mem_singleton] at hch
    subst hch
    decide
  have hre : ('"' :: (a.data ++ ('"' :: ',' :: ' ' ::
      '"' :: (b.data ++ ('"' :: ',' :: ' ' :: '"' :: (c.data ++
      ('"' :: ']' :: '\n' :: "```".data))))))) =
      ('"' :: (a.data ++ ('"' :: ',' :: ' ' ::
      '"' :: (b.data ++ ('"' :: ',' :: ' ' :: '"' :: (c.data ++ ['"'])))))) ++
      (']' :: '\n' :: "```".data) := by
    simp [List.append_assoc]
  have hmatch : fenceMatchAt (fencedPayload a b c).data = some (payloadCapture a b c) := by
    show fenceMatchAt (fenceLit ++ ('\n' :: '[' :: ('"' :: (a.data ++ ('"' :: ',' :: ' ' ::
      '"' :: (b.data ++ ('"' :: ',' :: ' ' :: '"' :: (c.data ++
      ('"' :: ']' :: '\n' :: "```".data))))))))) = some (payloadCapture a b c)
    simp only [fenceMatchAt]
    rw [dropPrefixChars_append]
    show (match fenceFindClose ('"' :: (a.data ++ ('"' :: ',' :: ' ' ::
        '"' :: (b.data ++ ('"' :: ',' :: ' ' :: '"' :: (c.data ++
        ('"' :: ']' :: '\n' :: "```".data)))))))  with
      | some (body, _) => some ('[' :: body ++ [']'])
      | none => none) = some (payloadCapture a b c)
    rw [hre]
    rw [fenceFindClose_first _ _ hmem (by decide)]
    simp [payloadCapture]
  apply fenceSearch_of_matchAt _ _ ?_ hmatch
  intro hcon
  have h2 : ("```json\n[".data ++ ('"' :: (a.data ++ ('"' :: ',' :: ' ' ::
      '"' :: (b.data ++ ('"' :: ',' :: ' ' :: '"' :: (c.data ++
      ('"' :: ']' :: '\n' :: "```".data)))))))).length = ([] : List Char).length :=
    congrArg List.length hcon
  simp [List.length_append] at h2

theorem afterFirstLB_append (pre : List Char) : ∀ (rest : List Char),
    (∀ c ∈ pre, c ≠ '[') → afterFirstLB (pre ++ '[' :: rest) = some rest := by
  induction pre with
  | nil => intro rest _; simp [afterFirstLB]
  | cons c cs ih =>
    intro rest h
    simp only [List.cons_append, afterFirstLB]
    rw [if_neg (h c (by simp))]
    exact ih rest (fun d hd => h d (by simp [hd]))

theorem upToLastRB_none (cs : List Char) (h : ∀ c ∈ cs, c ≠ ']') :
    upToLastRB cs = none := by
  induction cs with
  | nil => rfl
  | cons c cs ih =>
    simp only [upToLastRB]
    rw [ih (fun d hd => h d (by simp [hd]))]
    rw [if_neg (h c (by simp))]

theorem upToLastRB_last (cs : List Char) : ∀ (post : List Char),
    (∀ c ∈ cs, c ≠ ']') → (∀ c ∈ post, c ≠ ']') →
    upToLastRB (cs ++ ']' :: post) = some cs := by
  induction cs with
  | nil =>
    intro post _ hpost
    simp only [List.nil_append, upToLastRB]
    rw [upToLastRB_none post hpost]
    simp
  | cons c cs ih =>
    intro post h hpost
    simp only [List.cons_append, upToLastRB]
    show (match upToLastRB (cs ++ ']' :: post) with
      | some body => some (c :: body)
      | none => if c = ']' then some [] else none) = some (c :: cs)
    rw [ih post (fun d hd => h d (by simp [hd])) hpost]

/-- The `/\[.*\]/s` match on the payload is the same bracketed JSON-array
text as the fenced capture (the first `[` opens the array and the last
`]` closes it). -/
theorem bracketMatch_fencedPayload (a b c : String)
    (ha : a.data.all goodChoiceChar = true)
    (hb : b.data.all goodChoiceChar = true)
    (hc : c.data.all goodChoiceChar = true) :
    bracketMatch (fencedPayload a b c).data = some (payloadCapture a b c) := by
  have spec : ∀ (s : String), s.data.all goodChoiceChar = true →
      ∀ ch ∈ s.data, ch ≠ ']' := by
    intro s hs ch hch
    exact (goodChoiceChar_spec ch (List.all_eq_true.mp hs ch hch)).2.2.2.2.2.1
  have hmem : ∀ ch ∈ ('"' :: (a.data ++ ('"' :: ',' :: ' ' ::
      '"' :: (b.data ++ ('"' :: ',' :: ' ' :: '"' :: (c.data ++ ['"'])))))), ch ≠ ']' := by
    refine List.forall_mem_cons.mpr ⟨by decide, ?_⟩
    refine List.forall_mem_append.mpr ⟨spec a ha, ?_⟩
    refine List.forall_mem_cons.mpr ⟨by decide, ?_⟩
    refine List.forall_mem_cons.mpr ⟨by decide, ?_⟩
    refine List.forall_mem_cons.mpr ⟨by decide, ?_⟩
    refine List.forall_mem_cons.mpr ⟨by decide, ?_⟩
    refine List.forall_mem_append.mpr ⟨spec b hb, ?_⟩
    refine List.forall_mem_cons.mpr ⟨by decide, ?_⟩
    refine List.forall_mem_cons.mpr ⟨by decide, ?_⟩
    refine List.forall_mem_cons.mpr ⟨by decide, ?_⟩
    refine List.forall_mem_cons.mpr ⟨by decide, ?_⟩
    refine List.forall_mem_append.mpr ⟨spec c hc, ?_⟩
    intro ch hch
    simp only [List.mem_singleton] at hch
    subst hch
    decide
  have hre : ('"' :: (a.data ++ ('"' :: ',' :: ' ' ::
      '"' :: (b.data ++ ('"' :: ',' :: ' ' :: '"' :: (c.data ++
      ('"' :: ']' :: '\n' :: "```".data))))))) =
      ('"' :: (a.data ++ ('"' :: ',' :: ' ' ::
      '"' :: (b.data ++ ('"' :: ',' :: ' ' :: '"' :: (c.data ++ ['"'])))))) ++
      (']' :: '\n' :: "```".data) := by
    simp [List.append_assoc]
  show bracketMatch ("```json\n".data ++ '[' :: ('"' :: (a.data ++ ('"' :: ',' :: ' ' ::
    '"' :: (b.data ++ ('"' :: ',' :: ' ' :: '"' :: (c.data ++
    ('"' :: ']' :: '\n' :: "```".data)))))))) = some (payloadCapture a b c)
  simp only [bracketMatch]
  rw [afterFirstLB_append "```json\n".data _ (by decide)]
  show (match upToLastRB ('"' :: (a.data ++ ('"' :: ',' :: ' ' ::
      '"' :: (b.data ++ ('"' :: ',' :: ' ' :: '"' :: (c.data ++
      ('"' :: ']' :: '\n' :: "```".data))))))) with
    | some body => some ('[' :: body ++ [']'])
    | none => none) = some (payloadCapture a b c)
  rw [hre]
  rw [upToLastRB_last _ _ hmem (by decide)]
  simp [payloadCapture]

theorem parseStringBody_append (cs : List Char) : ∀ (f : Nat) (rest acc : List Char),
    (∀ c ∈ cs, 32 ≤ c.toNat ∧ c ≠ '"' ∧ c ≠ '\\') → cs.length < f →
    parseStringBody f (cs ++ '"' :: rest) acc =
      some (String.mk (acc.reverse ++ cs), rest) := by
  induction cs with
  | nil =>
    intro f rest acc _ hf
    match f, hf with
    | f + 1, _ => simp [parseStringBody]
  | cons c cs ih =>
    intro f rest acc h hf
    match f, hf with
    | f + 1, hf2 =>
      obtain ⟨h32, hq, hbs⟩ := h c (by simp)
      simp only [List.cons_append, parseStringBody]
      rw [if_neg hq, if_neg hbs, if_neg (by omega)]
      show parseStringBody f (cs ++ '"' :: rest) (c :: acc) = _
      rw [ih f rest (c :: acc) (fun d hd => h d (by simp [hd]))
        (by simp only [List.length_cons] at hf2; omega)]
      simp

theorem parseVal_string (cs : List Char) (f : Nat) (rest : List Char)
    (h : ∀ c ∈ cs, 32 ≤ c.toNat ∧ c ≠ '"' ∧ c ≠ '\\')
    (hf : cs.length + 2 ≤ f) :
    parseVal f ('"' :: (cs ++ '"' :: rest)) = some (.str (String.mk cs), rest) := by
  obtain ⟨g, rfl⟩ : ∃ g, f = g + 1 := ⟨f - 1, by omega⟩
  show (match parseStringBody g (cs ++ '"' :: rest) [] with
    | some (s, r) => some (JSValue.str s, r)
    | none => none) = some (.str (String.mk cs), rest)
  rw [parseStringBody_append cs g rest [] h (by omega)]
  simp

theorem parseVal_ws (f : Nat) (c : Char) (cs : List Char) (h : wsChar c = true) :
    parseVal (f + 1) (c :: cs) = parseVal (f + 1) cs := by
  simp only [parseVal]
  rw [show skipWs (c :: cs) = skipWs cs from by simp [skipWs, h]]

theorem parseArrItems_step (f : Nat) (cs rest : List Char) (acc : List JSValue)
    (h : ∀ c ∈ cs, 32 ≤ c.toNat ∧ c ≠ '"' ∧ c ≠ '\\')
    (hf : cs.length + 2 ≤ f) :
    parseArrItems (f + 1) ('"' :: (cs ++ '"' :: ',' :: ' ' :: rest)) acc =
      parseArrItems f (' ' :: rest) (acc ++ [.str (String.mk cs)]) := by
  show (match parseVal f ('"' :: (cs ++ '"' :: ',' :: ' ' :: rest)) with
    | none => none
    | some (v, r) =>
      match skipWs r with
      | ',' :: r2 => parseArrItems f r2 (acc ++ [v])
      | ']' :: r2 => some (.arr (acc ++ [v]), r2)
      | _ => none) = parseArrItems f (' ' :: rest) (acc ++ [.str (String.mk cs)])
  rw [parseVal_string cs f (',' :: ' ' :: rest) h hf]
  rfl

theorem parseArrItems_step_ws (f : Nat) (cs rest : List Char) (acc : List JSValue)
    (h : ∀ c ∈ cs, 32 ≤ c.toNat ∧ c ≠ '"' ∧ c ≠ '\\')
    (hf : cs.length + 2 ≤ f) :
    parseArrItems (f + 1) (' ' :: '"' :: (cs ++ '"' :: ',' :: ' ' :: rest)) acc =
      parseArrItems f (' ' :: rest) (acc ++ [.str (String.mk cs)]) := by
  obtain ⟨g, rfl⟩ : ∃ g, f = g + 1 := ⟨f - 1, by omega⟩
  show (match parseVal (g + 1) (' ' :: '"' :: (cs ++ '"' :: ',' :: ' ' :: rest)) with
    | none => none
    | some (v, r) =>
      match skipWs r with
      | ',' :: r2 => parseArrItems (g + 1) r2 (acc ++ [v])
      | ']' :: r2 => some (.arr (acc ++ [v]), r2)
      | _ => none) = parseArrItems (g + 1) (' ' :: rest) (acc ++ [.str (String.mk cs)])
  rw [parseVal_ws g ' ' _ (by decide)]
  rw [parseVal_string cs (g + 1) (',' :: ' ' :: rest) h hf]
  rfl

theorem parseArrItems_last_ws (f : Nat) (cs : List Char) (acc : List JSValue)
    (h : ∀ c ∈ cs, 32 ≤ c.toNat ∧ c ≠ '"' ∧ c ≠ '\\')
    (hf : cs.length + 2 ≤ f) :
    parseArrItems (f + 1) (' ' :: '"' :: (cs ++ ['"', ']'])) acc =
      some (.arr (acc ++ [.str (String.mk cs)]), []) := by
  obtain ⟨g, rfl⟩ : ∃ g, f = g + 1 := ⟨f - 1, by omega⟩
  show (match parseVal (g + 1) (' ' :: '"' :: (cs ++ ['"', ']'])) with
    | none => none
    | some (v, r) =>
      match skipWs r with
      | ',' :: r2 => parseArrItems (g + 1) r2 (acc ++ [v])
      | ']' :: r2 => some (.arr (acc ++ [v]), r2)
      | _ => none) = some (.arr (acc ++ [.str (String.mk cs)]), [])
  rw [parseVal_ws g ' ' _ (by decide)]
  rw [show ('"' :: (cs ++ ['"', ']']) : List Char) = '"' :: (cs ++ '"' :: [']']) from rfl]
  rw [parseVal_string cs (g + 1) [']'] h hf]
  rfl

/-- `JSON.parse` of the captured array text yields exactly the
three-element string array. -/
theorem jsonParse_payloadCapture (a b c : String)
    (ha : a.data.all goodChoiceChar = true)
    (hb : b.data.all goodChoiceChar = true)
    (hc : c.data.all goodChoiceChar = true) :
    jsonParse (String.mk (payloadCapture a b c)) =
      some (.arr [.str a, .str b, .str c]) := by
  have hchars : ∀ (s : String), s.data.all goodChoiceChar = true →
      ∀ ch ∈ s.data, 32 ≤ ch.toNat ∧ ch ≠ '"' ∧ ch ≠ '\\' := by
    intro s hs ch h
    obtain ⟨h1, h2, _, _, _, _, _, h8, _, _⟩ :=
      goodChoiceChar_spec ch (List.all_eq_true.mp hs ch h)
    exact ⟨h8, h1, h2⟩
  have hcap : payloadCapture a b c =
      '[' :: ('"' :: (a.data ++ ('"' :: ',' :: ' ' :: '"' :: (b.data ++
        ('"' :: ',' :: ' ' :: '"' :: (c.data ++ ['"', ']'])))))) := by
    simp [payloadCapture, List.append_assoc]
  unfold jsonParse
  rw [show (String.mk (payloadCapture a b c)).data = payloadCapture a b c from rfl]
  rw [hcap]
  rw [show (String.mk ('[' :: ('"' :: (a.data ++ ('"' :: ',' :: ' ' :: '"' :: (b.data ++
      ('"' :: ',' :: ' ' :: '"' :: (c.data ++ ['"', ']']))))))) ).length =
      a.data.length + b.data.length + c.data.length + 12 from by
    show ('[' :: ('"' :: (a.data ++ ('"' :: ',' :: ' ' :: '"' :: (b.data ++
      ('"' :: ',' :: ' ' :: '"' :: (c.data ++ ['"', ']']))))))).length = _
    simp [List.length_append]
    omega]
  obtain ⟨F3, hF3⟩ : ∃ g,
      4 * (a.data.length + b.data.length + c.data.length + 12) + 8 = g + 4 :=
    ⟨4 * (a.data.length + b.data.length + c.data.length + 12) + 4, by omega⟩
  rw [hF3]
  show (match parseArrItems (F3 + 3) ('"' :: (a.data ++ ('"' :: ',' :: ' ' ::
      '"' :: (b.data ++ ('"' :: ',' :: ' ' :: '"' :: (c.data ++ ['"', ']'])))))) [] with
    | some (v, rest) => if skipWs rest = [] then some v else none
    | none => none) = some (.arr [.str a, .str b, .str c])
  rw [parseArrItems_step (F3 + 2) a.data _ [] (hchars a ha) (by omega)]
  rw [parseArrItems_step_ws (F3 + 1) b.data _ _ (hchars b hb) (by omega)]
  rw [parseArrItems_last_ws F3 c.data _ (hchars c hc) (by omega)]
  simp [stringMk_data, skipWs]

theorem fencedPayload_ne_empty (a b c : String) : fencedPayload a b c ≠ "" := by
  intro hcon
  have h2 : (fencedPayload a b c).data.length = 0 := by rw [hcon]; rfl
  have h3 : (fencedPayload a b c).data.length =
      ("```json\n[".data ++ ('"' :: (a.data ++ ('"' :: ',' :: ' ' ::
      '"' :: (b.data ++ ('"' :: ',' :: ' ' :: '"' :: (c.data ++
      ('"' :: ']' :: '\n' :: "```".data)))))))).length := rfl
  rw [h3] at h2
  simp [List.length_append] at h2

theorem choicesFromFence_fencedPayload (a b c : String)
    (ha : a.data.all goodChoiceChar = true)
    (hb : b.data.all goodChoiceChar = true)
    (hc : c.data.all goodChoiceChar = true) :
    choicesFromFence (fencedPayload a b c) = some [.str a, .str b, .str c] := by
  unfold choicesFromFence
  rw [fenceSearch_fencedPayload a b c ha hb hc]
  show (match jsonParse (String.mk (payloadCapture a b c)) with
    | some (JSValue.arr cs) => if cs.length > 0 then some cs else none
    | _ => none) = some [.str a, .str b, .str c]
  rw [jsonParse_payloadCapture a b c ha hb hc]
  simp

/-- C4 counterexample: when one of the three strings contains an escaped
double quote — a legal JSON string — part_000's quoted-substring
extraction cuts at the raw quote characters and returns a mangled triple
instead of the original strings. -/
theorem c4_counterexample :
    extractChoicesP0 (.obj [("data", .obj [("output",
        .str "```json\n[\"say \\\"hi\\\"\", \"b\", \"c\"]\n```")])]) =
      [.str "say \\", .str "", .str "b"] ∧
    [JSValue.str "say \\", .str "", .str "b"] ≠
      [JSValue.str "say \"hi\"", .str "b", .str "c"] := by
  refine ⟨by decide, by decide⟩

/-- C4 amended: the round trip holds for payloads whose fenced ```json
block holds a JSON array of 3 distinct strings made of printable
characters free of double quotes, backslashes, backticks and square
brackets: all three extraction functions return exactly those strings in
order (part_000 from its data.output quoted scan, the copy server from
the fenced-block capture, the copy-variant generateChoices from the
/\[.*\]/s capture). -/
theorem c4_amended (a b c t : String)
    (ha : a.data.all goodChoiceChar = true)
    (hb : b.data.all goodChoiceChar = true)
    (hc : c.data.all goodChoiceChar = true)
    (hab : a ≠ b) (hac : a ≠ c) (hbc : b ≠ c) :
    extractChoices (.obj [("data", .str (fencedPayload a b c))]) =
      [.str a, .str b, .str c] ∧
    extractChoicesP0 (.obj [("data", .obj [("output", .str (fencedPayload a b c))])]) =
      [.str a, .str b, .str c] ∧
    generateChoicesCopy (.str t) (.ok (.obj [("data", .str (fencedPayload a b c))])) =
      [.str a, .str b, .str c] := by
  have hne := fencedPayload_ne_empty a b c
  have htr : truthy (JSValue.str (fencedPayload a b c)) = true := by
    simp [truthy, bne_iff_ne]
    exact hne
  refine ⟨?_, ?_, ?_⟩
  · have hd : getField (.obj [("data", .str (fencedPayload a b c))]) "data" =
        .str (fencedPayload a b c) := rfl
    simp only [extractChoices, hd]
    rw [if_pos htr]
    rw [choicesFromFence_fencedPayload a b c ha hb hc]
  · have hd : getField (.obj [("data", .obj [("output", .str (fencedPayload a b c))])]) "data" =
        .obj [("output", .str (fencedPayload a b c))] := rfl
    have ho : getField (.obj [("output", .str (fencedPayload a b c))]) "output" =
        .str (fencedPayload a b c) := rfl
    simp only [extractChoicesP0, hd, ho]
    rw [if_pos (by simp [truthy]; exact hne)]
    rw [quotedScan_fencedPayload a b c ha hb hc]
    simp
  · have hd : getField (.obj [("data", .str (fencedPayload a b c))]) "data" =
        .str (fencedPayload a b c) := rfl
    simp only [generateChoicesCopy]
    rw [if_neg (by simp [isStrV])]
    simp only [hd]
    rw [if_pos (by simp [truthy]; exact hne)]
    rw [bracketMatch_fencedPayload a b c ha hb hc]
    show (match jsonParse (String.mk (payloadCapture a b c)) with
      | none => choicesFromLines (fencedPayload a b c)
      | some (JSValue.arr xs) =>
        if xs.length > 0 then xs else choicesFromWholeParse (fencedPayload a b c)
      | some _ => choicesFromWholeParse (fencedPayload a b c)) =
      [.str a, .str b, .str c]
    rw [jsonParse_payloadCapture a b c ha hb hc]
    simp

theorem c4_amended_witness :
    ("Open the door".data.all goodChoiceChar = true) ∧
    ("Run away".data.all goodChoiceChar = true) ∧
    ("Wait quietly".data.all goodChoiceChar = true) ∧
    ("Open the door" : String) ≠ "Run away" ∧
    ("Open the door" : String) ≠ "Wait quietly" ∧
    ("Run away" : String) ≠ "Wait quietly" ∧
    extractChoices (.obj [("data", .str (fencedPayload "Open the door" "Run away" "Wait quietly"))]) =
      [.str "Open the door", .str "Run away", .str "Wait quietly"] :=
  ⟨by decide, by decide, by decide, by decide, by decide, by decide,
   (c4_amended "Open the door" "Run away" "Wait quietly" "ctx"
      (by decide) (by decide) (by decide) (by decide) (by decide) (by decide)).1⟩
